import Mathlib

/-!
# Verification of the log-to-flow conversion engine

Shallow embedding of the agent-flow log parser (`useAgentFlowParser` and its
helper functions: `parseAgentRequests`, `convertLogEntryToStep`,
`extractAgentContent`, `parseAssociatedResources`, `parseToolDetails`,
`parseSystemPromptCache`, `isThoughtStep`, `extractToolName`,
`extractActualAgentName`, `extractActionNumber`).

Strings are modelled as `List Char`; the JavaScript regular expressions used
by the source are modelled by dedicated scanning functions that follow the
leftmost-match / greedy / lazy semantics of each concrete pattern.
JavaScript `JSON.parse` is modelled by an executable JSON parser; numeric
JSON values are kept as their source lexeme, since the parser under
verification only passes them through and never computes with them.
-/

namespace AgentFlow

abbrev Chars := List Char

/-- Character-list view of a string literal. -/
def str (s : String) : Chars := s.data

/-- Whitespace test used to model the regex class `\s` and `String.trim`
(ASCII whitespace; the log corpus is ASCII). -/
def isWs (c : Char) : Bool := c.isWhitespace

/-- Hexadecimal digit test (for `\uXXXX` escapes). -/
def isHexChar (c : Char) : Bool :=
  c.isDigit || ('a' ≤ c && c ≤ 'f') || ('A' ≤ c && c ≤ 'F')

/-- Word-character test used to model the regex class `\w`. -/
def isWordChar (c : Char) : Bool :=
  c.isAlpha || c.isDigit || c = '_'

/-- Models JavaScript `String.prototype.includes` (substring test). -/
def containsStr : Chars → Chars → Bool
  | _, [] => true
  | [], _ :: _ => false
  | h :: t, n => if n.isPrefixOf (h :: t) then true else containsStr t n

/-- Models JavaScript `String.prototype.trim`. -/
def trimChars (cs : Chars) : Chars :=
  ((cs.dropWhile isWs).reverse.dropWhile isWs).reverse

/-- Models JavaScript `String.prototype.toLowerCase` (ASCII). -/
def lowerChars (cs : Chars) : Chars := cs.map Char.toLower

/-- Case-insensitive prefix test (models `/.../i` literal fragments). -/
def ciIsPrefixOf (pat cs : Chars) : Bool :=
  (lowerChars pat).isPrefixOf (lowerChars cs)

/-- The suffix of `hay` that follows the first occurrence of `pat`
(models `indexOf` + `substring(idx + pat.length)`); `none` when `pat`
does not occur. -/
def afterFirst : Chars → Chars → Option Chars
  | _, [] => some []
  | [], _ :: _ => none
  | h :: t, n =>
    if n.isPrefixOf (h :: t) then some (List.drop n.length (h :: t))
    else afterFirst t n

/-- Models `String.prototype.split('\n')`. -/
def splitNl : Chars → List Chars
  | [] => [[]]
  | c :: t =>
    if c = '\n' then [] :: splitNl t
    else
      match splitNl t with
      | h :: r => (c :: h) :: r
      | [] => [[c]]

/-- Decimal digit run to a natural number (models `parseInt` on a `\d+`
regex capture). -/
def digitsToNat (cs : Chars) : Nat :=
  cs.foldl (fun acc c => acc * 10 + (c.toNat - '0'.toNat)) 0

/-- JavaScript truthiness of an optional string value
(`undefined` and `''` are falsy). -/
def optStrTruthy : Option String → Bool
  | none => false
  | some s => s ≠ ""

/-- JavaScript `a || b` on an optional string with a string default. -/
def jsOrDefault (o : Option String) (d : String) : String :=
  match o with
  | some s => if s = "" then d else s
  | none => d

/-- JavaScript `a || b` on two optional strings. -/
def jsOrOpt (a b : Option String) : Option String :=
  match a with
  | some s => if s = "" then b else some s
  | none => b

/-! ## JSON values and `JSON.parse` -/

/-- JSON value. Numbers keep their source lexeme: the program under
verification never computes with numeric JSON values, it only passes them
through or stringifies them. -/
inductive Json where
  | null
  | bool (b : Bool)
  | num (lexeme : String)
  | str (s : String)
  | arr (elems : List Json)
  | obj (fields : List (String × Json))

/-- Field lookup on a JSON object. JavaScript object literals keep the last
of duplicate keys, so lookup takes the last binding. -/
def Json.getField? (j : Json) (k : String) : Option Json :=
  match j with
  | .obj fields => (fields.reverse.find? (fun p => p.1 = k)).map Prod.snd
  | _ => none

/-- String-typed field lookup. -/
def Json.getStr? (j : Json) (k : String) : Option String :=
  match j.getField? k with
  | some (.str s) => some s
  | _ => none

/-- Is the value a JSON object? -/
def Json.isObj : Json → Bool
  | .obj _ => true
  | _ => false

/-- Keys of a JSON object in first-insertion order, deduplicated
(models `Object.keys`). -/
def jsonObjKeys (fields : List (String × Json)) : List String :=
  (fields.map Prod.fst).foldl
    (fun acc k => if acc.contains k then acc else acc ++ [k]) []

/-- Zero test on a JSON number lexeme (for JavaScript truthiness):
the value is zero iff every digit of its mantissa is `0`. -/
def numLexemeIsZero (lexeme : String) : Bool :=
  (lexeme.data.takeWhile (fun c => c ≠ 'e' ∧ c ≠ 'E')).all
    (fun c => !c.isDigit || c = '0')

/-- JavaScript truthiness of a JSON value. -/
def Json.truthy : Json → Bool
  | .null => false
  | .bool b => b
  | .num lexeme => !numLexemeIsZero lexeme
  | .str s => s ≠ ""
  | .arr _ => true
  | .obj _ => true

/-- JavaScript truthiness of an optional JSON value (`undefined` is falsy). -/
def jsonOptTruthy : Option Json → Bool
  | none => false
  | some j => j.truthy

mutual

/-- Approximate JavaScript `ToString` on a JSON value, used to model template
interpolation of values extracted from parsed JSON. -/
def jsToString : Json → String
  | .null => "null"
  | .bool b => if b then "true" else "false"
  | .num lexeme => lexeme
  | .str s => s
  | .arr elems => jsToStringList elems
  | .obj _ => "[object Object]"

/-- `Array.prototype.toString` (comma-joined elements, `null` printing as
the empty string). -/
def jsToStringList : List Json → String
  | [] => ""
  | [Json.null] => ""
  | [j] => jsToString j
  | Json.null :: t => "," ++ jsToStringList t
  | j :: t => jsToString j ++ "," ++ jsToStringList t

end

/-- JSON whitespace. -/
def isJsonWs (c : Char) : Bool :=
  c = ' ' || c = '\t' || c = '\n' || c = '\r'

/-- Parse a JSON string body after the opening quote; returns the decoded
characters and the remaining input after the closing quote. -/
def parseJsonString : Nat → Chars → Option (Chars × Chars)
  | 0, _ => none
  | _ + 1, [] => none
  | fuel + 1, c :: rest =>
    if c = '"' then some ([], rest)
    else if c = '\\' then
      match rest with
      | [] => none
      | e :: rest2 =>
        let decoded : Option (Char × Chars) :=
          if e = '"' then some ('"', rest2)
          else if e = '\\' then some ('\\', rest2)
          else if e = '/' then some ('/', rest2)
          else if e = 'b' then some ('\x08', rest2)
          else if e = 'f' then some ('\x0c', rest2)
          else if e = 'n' then some ('\n', rest2)
          else if e = 'r' then some ('\r', rest2)
          else if e = 't' then some ('\t', rest2)
          else if e = 'u' then
            match rest2 with
            | h1 :: h2 :: h3 :: h4 :: rest3 =>
              if isHexChar h1 && isHexChar h2 && isHexChar h3 && isHexChar h4 then
                let hexVal := fun (c : Char) =>
                  if c.isDigit then c.toNat - '0'.toNat
                  else if c ≥ 'a' then c.toNat - 'a'.toNat + 10
                  else c.toNat - 'A'.toNat + 10
                some (Char.ofNat
                  (((hexVal h1 * 16 + hexVal h2) * 16 + hexVal h3) * 16 + hexVal h4), rest3)
              else none
            | _ => none
          else none
        match decoded with
        | some (ch, rest') =>
          match parseJsonString fuel rest' with
          | some (tail, rem) => some (ch :: tail, rem)
          | none => none
        | none => none
    else if c.toNat < 0x20 then none
    else
      match parseJsonString fuel rest with
      | some (tail, rem) => some (c :: tail, rem)
      | none => none

/-- Parse a JSON number starting at the current position; returns its lexeme
and the remaining input. -/
def parseJsonNumber (cs : Chars) : Option (Chars × Chars) :=
  let (sign, afterSign) :=
    match cs with
    | '-' :: t => (['-'], t)
    | _ => (([] : Chars), cs)
  match afterSign with
  | [] => none
  | c :: _ =>
    if !c.isDigit then none
    else
      let intPart :=
        if c = '0' then ['0']
        else afterSign.takeWhile Char.isDigit
      let afterInt := afterSign.drop intPart.length
      let (fracPart, afterFrac) :=
        match afterInt with
        | '.' :: t =>
          let ds := t.takeWhile Char.isDigit
          if ds.isEmpty then (([] : Chars), afterInt)
          else ('.' :: ds, t.drop ds.length)
        | _ => (([] : Chars), afterInt)
      if fracPart.isEmpty && (match afterInt with | '.' :: _ => true | _ => false) then
        none
      else
        let (expPart, afterExp) :=
          match afterFrac with
          | e :: t =>
            if e = 'e' || e = 'E' then
              let (esign, t2) :=
                match t with
                | '+' :: t' => (['+'], t')
                | '-' :: t' => (['-'], t')
                | _ => (([] : Chars), t)
              let ds := t2.takeWhile Char.isDigit
              if ds.isEmpty then (([] : Chars), afterFrac)
              else (e :: (esign ++ ds), t2.drop ds.length)
            else (([] : Chars), afterFrac)
          | [] => (([] : Chars), afterFrac)
        if expPart.isEmpty &&
            (match afterFrac with
             | e :: _ => e = 'e' || e = 'E'
             | [] => false) then
          none
        else
          some (sign ++ intPart ++ fracPart ++ expPart, afterExp)

mutual

/-- Fuel-indexed recursive-descent JSON value parser. -/
def parseJsonValue : Nat → Chars → Option (Json × Chars)
  | 0, _ => none
  | fuel + 1, cs =>
    match cs.dropWhile isJsonWs with
    | [] => none
    | c :: rest =>
      if c = '"' then
        match parseJsonString (fuel + 1) rest with
        | some (body, rem) => some (.str (String.mk body), rem)
        | none => none
      else if c = 't' then
        if (str "rue").isPrefixOf rest then some (.bool true, rest.drop 3) else none
      else if c = 'f' then
        if (str "alse").isPrefixOf rest then some (.bool false, rest.drop 4) else none
      else if c = 'n' then
        if (str "ull").isPrefixOf rest then some (.null, rest.drop 3) else none
      else if c = '[' then
        match (rest.dropWhile isJsonWs) with
        | ']' :: rem => some (.arr [], rem)
        | _ =>
          match parseJsonElems fuel rest with
          | some (elems, rem) => some (.arr elems, rem)
          | none => none
      else if c = '\x7b' then
        match (rest.dropWhile isJsonWs) with
        | '\x7d' :: rem => some (.obj [], rem)
        | _ =>
          match parseJsonMembers fuel rest with
          | some (fields, rem) => some (.obj fields, rem)
          | none => none
      else
        match parseJsonNumber (c :: rest) with
        | some (lexeme, rem) => some (.num (String.mk lexeme), rem)
        | none => none

/-- Parse one-or-more comma-separated array elements up to `]`. -/
def parseJsonElems : Nat → Chars → Option (List Json × Chars)
  | 0, _ => none
  | fuel + 1, cs =>
    match parseJsonValue fuel cs with
    | none => none
    | some (v, rem) =>
      match rem.dropWhile isJsonWs with
      | ',' :: rem2 =>
        match parseJsonElems fuel rem2 with
        | some (vs, rem3) => some (v :: vs, rem3)
        | none => none
      | ']' :: rem2 => some ([v], rem2)
      | _ => none

/-- Parse one-or-more comma-separated object members up to the closing
brace. -/
def parseJsonMembers : Nat → Chars → Option (List (String × Json) × Chars)
  | 0, _ => none
  | fuel + 1, cs =>
    match cs.dropWhile isJsonWs with
    | '"' :: rest =>
      match parseJsonString (fuel + 1) rest with
      | none => none
      | some (key, rem) =>
        match rem.dropWhile isJsonWs with
        | ':' :: rem2 =>
          match parseJsonValue fuel rem2 with
          | none => none
          | some (v, rem3) =>
            match rem3.dropWhile isJsonWs with
            | ',' :: rem4 =>
              match parseJsonMembers fuel rem4 with
              | some (fields, rem5) => some ((String.mk key, v) :: fields, rem5)
              | none => none
            | '\x7d' :: rem4 => some ([(String.mk key, v)], rem4)
            | _ => none
        | _ => none
    | _ => none

end

/-- Models `JSON.parse` on one text: a single JSON value with optional
surrounding whitespace; trailing garbage is a parse error. -/
def jsonParse (cs : Chars) : Option Json :=
  match parseJsonValue (cs.length + 1) cs with
  | some (v, rem) => if (rem.dropWhile isJsonWs).isEmpty then some v else none
  | none => none

/-! ## Data model (`src/lib/types.ts`) -/

/-- One ingested log record (interface `LogEntry`). Only the fields the
parser reads are listed; `lineno` and `exception` are carried opaquely.
A record parsed from JSON whose field is absent or not a string is modelled
as `none` (for optional fields) or `""` (for `timestamp`/`level`/`logger`,
which the parser only compares or copies). -/
structure LogEntry where
  timestamp : String := ""
  level : String := ""
  logger : String := ""
  message : String := ""
  module : Option String := none
  pathname : Option String := none
  lineno : Option Json := none
  funcName : Option String := none
  component : Option String := none
  action : Option String := none
  agent_name : Option String := none
  user_id : Option String := none
  request_id : Option String := none
  exception : Option Json := none
  system_prompt : Option String := none
  service_name : Option String := none

/-- Step type (the `type` union of interface `AgentStep`). -/
inductive StepType where
  | initial_request
  | system_prompt
  | tool_execution
  | resource_retrieval
  | agent_response
  | intelligence_change
  | error
  deriving DecidableEq, Repr

/-- One section of a cache-annotated system prompt. -/
structure CacheSection where
  content : String
  cached : Bool
  type : Option String := none
  deriving DecidableEq, Repr

/-- Result of `parseSystemPromptCache`. -/
structure CacheInfo where
  isCached : Bool
  sections : List CacheSection
  totalSections : Nat
  deriving DecidableEq, Repr

/-- One associated resource record. -/
structure Resource where
  id : String
  title : String
  relevance : Option Nat := none
  content : String
  lastAccessed : Option String := none
  deriving DecidableEq, Repr

/-- Result of `parseToolDetails`. `parameters` is the parsed (or
reconstructed) JSON parameter map. The source field `example` is named
`exampleText` here because `example` is a Lean keyword. -/
structure ToolDetails where
  name : String
  description : String
  parameters : Option Json := none
  exampleText : Option String := none

/-- The `requestDetails` sub-record of an initial-request step. -/
structure RequestDetails where
  requestId : String
  historyCount : Nat
  preferences : String
  deriving DecidableEq, Repr

/-- The `extractedContent` union of an `AgentStep` (fields set by the
various extraction paths; unset fields are `none`). `observationData`
carries the raw `results` value of a parsed observation payload. -/
structure ExtractedContent where
  thought : Option String := none
  action : Option String := none
  observation : Option String := none
  response : Option String := none
  fullContent : Option String := none
  systemPrompt : Option String := none
  systemPromptCache : Option CacheInfo := none
  service_name : Option String := none
  associatedResources : Option (List Resource) := none
  toolDetails : Option ToolDetails := none
  resourceCount : Option Nat := none
  resourceContent : Option String := none
  observationData : Option Json := none
  requestDetails : Option RequestDetails := none

/-- The `details` sub-record copied verbatim from the log entry. -/
structure StepDetails where
  logger : String
  module : Option String
  funcName : Option String
  component : Option String
  action : Option String
  pathname : Option String
  lineno : Option Json
  exception : Option Json
  level : String

/-- One classified step (interface `AgentStep`). -/
structure AgentStep where
  id : String
  type : StepType
  timestamp : String
  agent_name : Option String
  title : String
  content : String
  extractedContent : ExtractedContent
  actionNumber : Option (Nat × Nat)
  details : StepDetails
  user_id : Option String
  request_id : Option String
  status : String

/-- Per-conversation summary statistics. -/
structure Summary where
  total_steps : Nat
  agents_involved : List String
  tools_used : List String
  resources_retrieved : Nat
  errors : Nat
  deriving DecidableEq, Repr

/-- One reconstructed conversation (interface `AgentRequest`). -/
structure AgentRequest where
  id : String
  user_id : Option String
  request_id : Option String
  start_time : String
  end_time : String
  steps : List AgentStep
  entries : List LogEntry
  summary : Summary

/-! ## Regex models

Each JavaScript regular expression of the source is modelled by a dedicated
scanning function with that pattern's leftmost-match, greedy and lazy
semantics. -/

/-- Backtracking capture for a pattern fragment `\s*([C]+)` (greedy
whitespace, then a greedy non-empty run of characters satisfying `keep`):
returns the capture and the remaining input. When the whole input is
whitespace the regex engine gives characters back to the run, which is what
the descending search below reproduces. `minWs` is 1 for `\s+`. -/
def capAfterWs (keep : Char → Bool) (minWs : Nat) (r : Chars) : Option (Chars × Chars) :=
  if (r.takeWhile isWs).length < r.length then
    if (r.takeWhile isWs).length < minWs then none
    else
      if ((r.drop (r.takeWhile isWs).length).takeWhile keep).isEmpty then none
      else
        some ((r.drop (r.takeWhile isWs).length).takeWhile keep,
          (r.drop (r.takeWhile isWs).length).drop
            ((r.drop (r.takeWhile isWs).length).takeWhile keep).length)
  else
    -- the whole input is whitespace: give back the longest keepable tail
    if ((r.reverse.takeWhile keep).reverse).isEmpty ||
        r.length - ((r.reverse.takeWhile keep).reverse).length < minWs then none
    else some ((r.reverse.takeWhile keep).reverse, [])

/-- Leftmost-match scan: try the position matcher `f` at every position of
the input from the left (the way a regex engine advances after a failed
match attempt). -/
def scanFor (f : Chars → Option α) : Chars → Option α
  | [] => f []
  | c :: t =>
    match f (c :: t) with
    | some r => some r
    | none => scanFor f t

/-- First-match scan for a pattern `L\s*([C]+)` (literal label, whitespace,
capture): tries every occurrence of the label from the left, moving on when
the capture part cannot match there. -/
def scanLabelCap (label : Chars) (keep : Char → Bool) : Chars → Option Chars :=
  scanFor fun s =>
    if label.isPrefixOf s then
      match capAfterWs keep 0 (s.drop label.length) with
      | some (cap, _) => some cap
      | none => none
    else none

/-- First-match scan for a pattern `L([C]+)` (literal label immediately
followed by the capture, no whitespace skipping). -/
def scanLabelCapDirect (label : Chars) (keep : Char → Bool) : Chars → Option Chars :=
  scanFor fun s =>
    if label.isPrefixOf s then
      let cap := (s.drop label.length).takeWhile keep
      if cap.isEmpty then none else some cap
    else none

/-- Lazy capture for `(.*?)` (no newlines) growing until `ok` accepts the
remaining suffix; `none` when a newline or the end is reached first. -/
def lazyCapNoNl (ok : Chars → Bool) : Chars → Option Chars
  | [] => if ok [] then some [] else none
  | c :: t =>
    if ok (c :: t) then some []
    else if c = '\n' then none
    else (lazyCapNoNl ok t).map (c :: ·)

/-- Index of the first occurrence of `pat` in the input. -/
def findSubIdx? (pat : Chars) : Chars → Option Nat
  | [] => if pat.isEmpty then some 0 else none
  | c :: t =>
    if pat.isPrefixOf (c :: t) then some 0
    else (findSubIdx? pat t).map (· + 1)

/-- Index of the last occurrence of character `c`. -/
def lastIndexOfChar (c : Char) (cs : Chars) : Option Nat :=
  match cs.reverse.findIdx? (· = c) with
  | some j => some (cs.length - 1 - j)
  | none => none

/-- `\s+` then literal: whitespace run (at least one character) followed by
the literal; returns the rest after the literal. -/
def wsPlusThenLit (lit : Chars) (r : Chars) : Option Chars :=
  let g := r.takeWhile isWs
  if g.isEmpty then none
  else
    let r2 := r.drop g.length
    if lit.isPrefixOf r2 then some (r2.drop lit.length) else none

/-- `\s+(\d+)`: whitespace run (at least one character) followed by a digit
run; returns the digits and the rest. -/
def wsPlusThenDigits (r : Chars) : Option (Chars × Chars) :=
  let g := r.takeWhile isWs
  if g.isEmpty then none
  else
    let r2 := r.drop g.length
    let d := r2.takeWhile Char.isDigit
    if d.isEmpty then none else some (d, r2.drop d.length)

/-- Collect all matches of a position matcher, resuming after each match
(models `matchAll` for patterns that always consume at least one
character). -/
def scanAll (f : Chars → Option (α × Chars)) : Nat → Chars → List α
  | 0, _ => []
  | _ + 1, [] => []
  | fuel + 1, c :: t =>
    match f (c :: t) with
    | some (a, rest) => a :: scanAll f fuel rest
    | none => scanAll f fuel t

/-- Models `/message='(.*?)',\s*history_count=/` (the lazy capture stops at
the first quote-comma followed by `history_count=`). -/
def chatMessageCap : Chars → Option Chars :=
  scanFor fun s =>
    if (str "message=\x27").isPrefixOf s then
      lazyCapNoNl
        (fun r =>
          match r with
          | '\x27' :: ',' :: t => (str "history_count=").isPrefixOf (t.dropWhile isWs)
          | _ => false)
        (s.drop 9)
    else none

/-- Models `/request_id=([^,\s]+)/`. -/
def requestIdCap : Chars → Option Chars :=
  scanLabelCapDirect (str "request_id=") (fun c => !(c = ',') && !isWs c)

/-- Models `/history_count=(\d+)/`. -/
def historyCountCap : Chars → Option Chars :=
  scanLabelCapDirect (str "history_count=") Char.isDigit

/-- Models `/preferences=\{([^}]+)\}/`. -/
def preferencesCap : Chars → Option Chars :=
  scanFor fun s =>
    if (str "preferences=\x7b").isPrefixOf s then
      let r := s.drop 12
      let cap := r.takeWhile (· ≠ '\x7d')
      if cap.isEmpty then none
      else if (r.drop cap.length).head? = some '\x7d' then some cap else none
    else none

/-- Models `/using model:\s*([^\s]+)\s+for\s+([^$]+)/`
(model name, then the agent description). -/
def modelForCap : Chars → Option (Chars × Chars) :=
  scanFor fun s =>
    if (str "using model:").isPrefixOf s then
      match capAfterWs (fun c => !isWs c) 0 (s.drop 12) with
      | none => none
      | some (m, r2) =>
        match wsPlusThenLit (str "for") r2 with
        | none => none
        | some r3 =>
          match capAfterWs (fun c => !(c = '$')) 1 r3 with
          | some (cap2, _) => some (m, cap2)
          | none => none
    else none

/-- Models `/Intelligence upgraded to level\s*(\d+)/`. -/
def intelligenceLevelCap : Chars → Option Chars :=
  scanLabelCap (str "Intelligence upgraded to level") Char.isDigit

/-- Models `/(\[[\s\S]*\]|\{[\s\S]*\})/`: from the first opening bracket or
brace, greedily to the last matching closer anywhere in the input. -/
def jsonBlobCap : Chars → Option Chars :=
  scanFor fun s =>
    match s with
    | [] => none
    | c :: t =>
      if c = '[' then
        (lastIndexOfChar ']' t).map (fun i => '[' :: t.take (i + 1))
      else if c = '\x7b' then
        (lastIndexOfChar '\x7d' t).map (fun i => '\x7b' :: t.take (i + 1))
      else none

/-- Models the resource-addition pattern
`/(\w+\s+Agent)\s+added\s+(\d+)\s+relevant\s+resources\s+to\s+chat\s+context(?::\s+([\s\S]*))?/`:
returns the agent-name capture, the count digits and the optional trailing
content. -/
def resourceAdditionCap : Chars → Option (Chars × Chars × Option Chars) :=
  scanFor fun s =>
    let w := s.takeWhile isWordChar
    if w.isEmpty then none
    else
      let r1 := s.drop w.length
      let g1 := r1.takeWhile isWs
      if g1.isEmpty then none
      else
        let r2 := r1.drop g1.length
        if (str "Agent").isPrefixOf r2 then
          match wsPlusThenLit (str "added") (r2.drop 5) with
          | none => none
          | some r3 =>
            match wsPlusThenDigits r3 with
            | none => none
            | some (d, r4) =>
              match wsPlusThenLit (str "relevant") r4 with
              | none => none
              | some r5 =>
                match wsPlusThenLit (str "resources") r5 with
                | none => none
                | some r6 =>
                  match wsPlusThenLit (str "to") r6 with
                  | none => none
                  | some r7 =>
                    match wsPlusThenLit (str "chat") r7 with
                    | none => none
                    | some r8 =>
                      match wsPlusThenLit (str "context") r8 with
                      | none => none
                      | some r9 =>
                        let name := w ++ g1 ++ str "Agent"
                        match r9 with
                        | ':' :: r10 =>
                          let g := r10.takeWhile isWs
                          if g.isEmpty then some (name, d, none)
                          else some (name, d, some (r10.drop g.length))
                        | _ => some (name, d, none)
        else none

/-- Models one match of the injected-resource bullet pattern
`dash space \[ID: ([^\]]+)\] Title: "([^"]+)" \| Content: "([^"]+)"`
for `matchAll` over an injected-resource bullet list. -/
def injectedResourceMatch (s : Chars) : Option ((Chars × Chars × Chars) × Chars) :=
  if (str "- [ID: ").isPrefixOf s then
    let r1 := s.drop 7
    let idCap := r1.takeWhile (· ≠ ']')
    if idCap.isEmpty then none
    else
      if (str "] Title: \"").isPrefixOf (r1.drop idCap.length) then
        let r2 := (r1.drop idCap.length).drop 10
        let titleCap := r2.takeWhile (· ≠ '"')
          if titleCap.isEmpty then none
        else
          let r3 := r2.drop titleCap.length
          if (str "\" | Content: \"").isPrefixOf r3 then
            let r4 := r3.drop 14
            let contentCap := r4.takeWhile (· ≠ '"')
            if contentCap.isEmpty then none
            else if (r4.drop contentCap.length).head? = some '"' then
              some ((idCap, titleCap, contentCap), (r4.drop contentCap.length).drop 1)
            else none
          else none
      else none
  else none

/-- Models `/Action\s+(\d+)\/(\d+)\s+executed/`. -/
def actionNumberCap : Chars → Option (Nat × Nat) :=
  scanFor fun s =>
    if (str "Action").isPrefixOf s then
      match wsPlusThenDigits (s.drop 6) with
      | none => none
      | some (d1, r1) =>
        match r1 with
        | '/' :: r2 =>
          let d2 := r2.takeWhile Char.isDigit
          if d2.isEmpty then none
          else
            match wsPlusThenLit (str "executed") (r2.drop d2.length) with
            | some _ => some (digitsToNat d1, digitsToNat d2)
            | none => none
        | _ => none
    else none

/-- The lookahead `(?=\n\s*(?:\d+\.\s*)?(?:L1:|L2:|...))` that ends a lazy
reasoning-section capture: a newline, whitespace, an optional list number,
then one of the stop labels. -/
def stopLookahead (stops : List Chars) (cs : Chars) : Bool :=
  match cs with
  | '\n' :: t =>
    let r := t.dropWhile isWs
    let direct := stops.any (fun st => st.isPrefixOf r)
    let d := r.takeWhile Char.isDigit
    let numbered :=
      !d.isEmpty &&
        (match r.drop d.length with
         | '.' :: t2 => stops.any (fun st => st.isPrefixOf (t2.dropWhile isWs))
         | _ => false)
    direct || numbered
  | _ => false

/-- Lazy capture `([\s\S]*?)` growing until the stop lookahead holds or the
end of the input is reached (the `$` alternative). -/
def lazyToStop (stops : List Chars) : Chars → Chars
  | [] => []
  | c :: t => if stopLookahead stops (c :: t) then [] else c :: lazyToStop stops t

/-- One attempt of the reasoning-section pattern at the current position
(after its `(?:^|\n)` anchor): `\s*(?:\d+\.\s*)?Label:\s*` then the lazy
capture. -/
def sectionTryHere (label : Chars) (stops : List Chars) (cs : Chars) : Option Chars :=
  let r1 := cs.dropWhile isWs
  let d := r1.takeWhile Char.isDigit
  let viaNumber : Option Chars :=
    if d.isEmpty then none
    else
      match r1.drop d.length with
      | '.' :: t2 =>
        let r2 := t2.dropWhile isWs
        if label.isPrefixOf r2 then some (r2.drop label.length) else none
      | _ => none
  let afterLabel : Option Chars :=
    match viaNumber with
    | some rest => some rest
    | none => if label.isPrefixOf r1 then some (r1.drop label.length) else none
  afterLabel.map (fun rest => lazyToStop stops (rest.dropWhile isWs))

/-- Scan for the reasoning-section pattern: the attempt is allowed at the
start of the input and right after every newline (the consumed `(?:^|\n)`
alternative). -/
def sectionScan (label : Chars) (stops : List Chars) : Chars → Bool → Option Chars
  | cs, anchored =>
    match (if anchored then sectionTryHere label stops cs else none) with
    | some cap => some cap
    | none =>
      match cs with
      | [] => none
      | c :: t => sectionScan label stops t (c = '\n')

/-- First match of the reasoning-section pattern
`(?:^|\n)\s*(?:\d+\.\s*)?Label:\s*([\s\S]*?)(?=stop|$)` over a text. -/
def sectionCap (label : Chars) (stops : List Chars) (content : Chars) : Option Chars :=
  sectionScan label stops content true

/-! ## Cache-marker segmentation (`parseSystemPromptCache` internals) -/

/-- Match a complete cache marker, `[CACHED:<TYPE>]` (at least one non-`]`
type character) or `[UNCACHED]`, at the head of the input; returns the
marker text and the rest. -/
def matchMarker (cs : Chars) : Option (Chars × Chars) :=
  if (str "[CACHED:").isPrefixOf cs then
    let r := cs.drop 8
    let ty := r.takeWhile (· ≠ ']')
    if ty.isEmpty then none
    else
      match r.drop ty.length with
      | ']' :: rest => some (str "[CACHED:" ++ ty ++ [']'], rest)
      | _ => none
  else if (str "[UNCACHED]").isPrefixOf cs then
    some (str "[UNCACHED]", cs.drop 10)
  else none

/-- Does a complete cache marker occur anywhere in the text? -/
def hasMarker : Chars → Bool
  | [] => false
  | c :: t => (matchMarker (c :: t)).isSome || hasMarker t

/-- Split on cache markers, keeping the markers (models
`split(/(\[(?:CACHED:[^\]]+|UNCACHED)\])/)`, whose single capture group
puts each separator into the result list). `acc` is the pending
non-separator run, reversed. -/
def splitCacheAux : Nat → Chars → Chars → List Chars
  | 0, cs, acc => [acc.reverse ++ cs]
  | _ + 1, [], acc => [acc.reverse]
  | fuel + 1, c :: t, acc =>
    match matchMarker (c :: t) with
    | some (m, rest) => acc.reverse :: m :: splitCacheAux fuel rest []
    | none => splitCacheAux fuel t (c :: acc)

/-- Split a prompt text on cache markers (parts and separators
interleaved, as JavaScript `split` with a capture group produces). -/
def splitCache (cs : Chars) : List Chars :=
  splitCacheAux (cs.length + 1) cs []

/-- Models `/\[CACHED:([^\]]+)\]/` (extracts the cache type from a marker
part). -/
def cachedTypeCap : Chars → Option Chars :=
  scanFor fun s =>
    if (str "[CACHED:").isPrefixOf s then
      let r := s.drop 8
      let ty := r.takeWhile (· ≠ ']')
      if ty.isEmpty then none
      else if (r.drop ty.length).head? = some ']' then some ty else none
    else none

/-! ## Agent-name and tool-name patterns -/

/-- `[A-Za-z\s]` class of the agent-name patterns. -/
def isLetterOrWs (c : Char) : Bool := c.isAlpha || isWs c

/-- The keyword tail of an agent-name pattern: for each keyword, `\s+`
then the case-insensitive literal. -/
def agentNameTail : List Chars → Chars → Bool
  | [], _ => true
  | kw :: rest, r =>
    let g := r.takeWhile isWs
    !g.isEmpty && ciIsPrefixOf kw (r.drop g.length) &&
      agentNameTail rest ((r.drop g.length).drop kw.length)

/-- One anchored agent-name pattern
`/^([A-Za-z\s]+Agent)\s+kw1\s+kw2.../i`: the class run is greedy, so the
longest capture ending in (case-insensitive) `Agent` whose tail matches
wins. -/
def agentPatternCap (kws : List Chars) (msg : Chars) : Option Chars :=
  (List.range (msg.length + 1)).reverse.findSome? fun q =>
    if q = 0 then none
    else if (msg.take q).all isLetterOrWs &&
        ciIsPrefixOf (str "Agent") (msg.drop q) &&
        agentNameTail kws (msg.drop (q + 5)) then
      some (msg.take (q + 5))
    else none

/-- Greedy word capture followed by a case-insensitive literal, models
`/(\w+)lit/i` where `lit` may itself start with a word character (as in
`_agent`), so the greedy run backtracks from the longest capture. -/
def wordThenLitCap (lit : Chars) : Chars → Option Chars :=
  scanFor fun s =>
    let run := s.takeWhile isWordChar
    if run.isEmpty then none
    else
      (List.range (run.length + 1)).reverse.findSome? fun k =>
        if k = 0 then none
        else if ciIsPrefixOf lit (s.drop k) then some (run.take k) else none

/-- Models `/call_(\w+)/i`. -/
def callUnderscoreCap : Chars → Option Chars :=
  scanFor fun s =>
    if ciIsPrefixOf (str "call_") s then
      let cap := (s.drop 5).takeWhile isWordChar
      if cap.isEmpty then none else some cap
    else none

/-! ## Tool-details patterns (`parseToolDetails` internals) -/

/-- Models `/Parameters:\s*(\{[\s\S]*?\n\})/`: the capture runs from the
opening brace lazily to the first newline-brace pair, which must exist. -/
def paramsCap : Chars → Option Chars :=
  scanFor fun s =>
    if (str "Parameters:").isPrefixOf s then
      match (s.drop 11).dropWhile isWs with
      | '\x7b' :: t =>
        match findSubIdx? (str "\n\x7d") t with
        | some i => some ('\x7b' :: t.take (i + 2))
        | none => none
      | _ => none
    else none

/-- Models `/Example:\s*q([^q]+)q/` for a quote character `q`. -/
def exampleQuoteCap (q : Char) : Chars → Option Chars :=
  scanFor fun s =>
    if (str "Example:").isPrefixOf s then
      match (s.drop 8).dropWhile isWs with
      | c :: t =>
        if c = q then
          let cap := t.takeWhile (· ≠ q)
          if cap.isEmpty then none
          else if (t.drop cap.length).head? = some q then some cap else none
        else none
      | [] => none
    else none

/-- Models `/Example:\s*(Action:.*?)(?:\n\w+:|$)/`: the lazy dot cannot
cross a newline, so the capture is the rest of the line, accepted only when
the input ends there or the next line starts with a `word:` label. -/
def exampleActionCap : Chars → Option Chars :=
  scanFor fun s =>
    if (str "Example:").isPrefixOf s then
      let r := (s.drop 8).dropWhile isWs
      if (str "Action:").isPrefixOf r then
        let lineRest := (r.drop 7).takeWhile (· ≠ '\n')
        let after := (r.drop 7).drop lineRest.length
        let ok :=
          match after with
          | [] => true
          | '\n' :: t2 =>
            let w := t2.takeWhile isWordChar
            !w.isEmpty && (t2.drop w.length).head? = some ':'
          | _ => false
        if ok then some (str "Action:" ++ lineRest) else none
      else none
    else none

/-- Models `replace(/\\"/g, '"')`. -/
def replaceEscQuote : Chars → Chars
  | '\\' :: '"' :: t => '"' :: replaceEscQuote t
  | c :: t => c :: replaceEscQuote t
  | [] => []

/-- Models `replace(/\\\\/g, '\\')`. -/
def replaceEscBackslash : Chars → Chars
  | '\\' :: '\\' :: t => '\\' :: replaceEscBackslash t
  | c :: t => c :: replaceEscBackslash t
  | [] => []

/-- Models the anchored `/^\s*"([^"]+)":\s*\{/` key pattern of the
parameter-fallback line scan. -/
def keyLineCap (line : Chars) : Option Chars :=
  match line.dropWhile isWs with
  | '"' :: t =>
    let cap := t.takeWhile (· ≠ '"')
    if cap.isEmpty then none
    else
      match t.drop cap.length with
      | '"' :: ':' :: t2 =>
        if (t2.dropWhile isWs).head? = some '\x7b' then some cap else none
      | _ => none
  | _ => none

/-- Models `/lbl":\s*"([^"]+)"/` (used with `type` and `description` in the
parameter-fallback line scan). -/
def quotedValCap (label : Chars) : Chars → Option Chars :=
  scanFor fun s =>
    if label.isPrefixOf s then
      match (s.drop label.length).dropWhile isWs with
      | '"' :: t =>
        let cap := t.takeWhile (· ≠ '"')
        if cap.isEmpty then none
        else if (t.drop cap.length).head? = some '"' then some cap else none
      | _ => none
    else none

/-! ## `parseSystemPromptCache` -/

/-- The section-accumulating loop over the split parts of a prompt text
(state: current cached flag, current type, whether a marker has been seen,
sections so far). -/
def cacheLoop : List Chars → Bool → Option String → Bool → List CacheSection → List CacheSection
  | [], _, _, _, sections => sections
  | p :: rest, curCached, curType, seen, sections =>
    let part := trimChars p
    if part.isEmpty then cacheLoop rest curCached curType seen sections
    else if (str "[CACHED:").isPrefixOf part then
      let ty :=
        match cachedTypeCap part with
        | some tyc => String.mk tyc
        | none => "cached"
      cacheLoop rest true (some ty) true sections
    else if part = str "[UNCACHED]" then
      cacheLoop rest false (some "uncached") true sections
    else if !seen then
      -- content before any cache marker is skipped
      cacheLoop rest curCached curType seen sections
    else
      cacheLoop rest curCached curType seen
        (sections ++ [⟨String.mk part, curCached, curType⟩])

/-- Embeds `parseSystemPromptCache` (cache-annotation extraction on a system
prompt text); `none` models the `undefined` returned for a falsy prompt. -/
def parseSystemPromptCache (promptText : String) : Option CacheInfo :=
  if promptText = "" then none
  else
    let cs := promptText.data
    let hasCacheMarkers :=
      containsStr cs (str "[CACHED:") || containsStr cs (str "[UNCACHED]")
    if !hasCacheMarkers then
      some ⟨false, [⟨promptText, false, some "full"⟩], 1⟩
    else
      let sections := cacheLoop (splitCache cs) false none false []
      let sections :=
        if sections.isEmpty then [⟨promptText, false, some "full"⟩] else sections
      some ⟨sections.any (·.cached), sections, sections.length⟩

/-! ## `parseAssociatedResources` -/

/-- Label then `\s*` then a greedy non-empty capture, at the head of the
input. -/
def fieldCap (label : Chars) (keep : Char → Bool) (s : Chars) : Option (Chars × Chars) :=
  if label.isPrefixOf s then capAfterWs keep 0 (s.drop label.length) else none

/-- `\s*\n\s*` between two resource fields (a whitespace run that contains a
newline) followed by the next labelled field. -/
def nlGapThen (label : Chars) (keep : Char → Bool) (s : Chars) : Option (Chars × Chars) :=
  if (s.takeWhile isWs).contains '\n' then
    fieldCap label keep (s.drop (s.takeWhile isWs).length)
  else none

/-- One match of the primary five-line resource-block pattern of
`parseAssociatedResources`. -/
def matchResourceBlock (s : Chars) : Option (Resource × Chars) :=
  match fieldCap (str "- Resource ID:") (· ≠ '\n') s with
  | none => none
  | some (idc, r1) =>
    match nlGapThen (str "Title:") (· ≠ '\n') r1 with
    | none => none
    | some (tc, r2) =>
      match nlGapThen (str "Relevance:") Char.isDigit r2 with
      | none => none
      | some (rc, r3) =>
        match nlGapThen (str "Content:") (· ≠ '\n') r3 with
        | none => none
        | some (cc, r4) =>
          match nlGapThen (str "Last accessed:") (· ≠ '\n') r4 with
          | none => none
          | some (lc, r5) =>
            some (⟨String.mk (trimChars idc), String.mk (trimChars tc),
                   some (digitsToNat rc), String.mk (trimChars cc),
                   some (String.mk (trimChars lc))⟩, r5)

/-- Split before each occurrence of `pat`, keeping the occurrences (models
`split` on a lookahead); a zero-width match at position 0 does not split. -/
def splitBeforeAux (pat : Chars) : Chars → Chars → List Chars
  | acc, [] => [acc.reverse]
  | acc, c :: t =>
    if !acc.isEmpty && pat.isPrefixOf (c :: t) then
      acc.reverse :: splitBeforeAux pat [c] t
    else splitBeforeAux pat (c :: acc) t

/-- Split before each occurrence of `pat`. -/
def splitBefore (pat cs : Chars) : List Chars := splitBeforeAux pat [] cs

/-- Embeds `parseAssociatedResources`: the primary consecutive-five-line
pattern, falling back to per-block field matching when it finds nothing. -/
def parseAssociatedResources (resourcesText : String) : List Resource :=
  if (scanAll matchResourceBlock (resourcesText.data.length + 1) resourcesText.data).isEmpty then
    let keepLine := fun (c : Char) => !(c = '\n') && !(c = '\r')
    (splitBefore (str "- Resource ID:") resourcesText.data).foldl
      (fun acc block =>
        if (trimChars block).isEmpty || !containsStr block (str "Resource ID:") then acc
        else
          let idMatch := scanLabelCap (str "Resource ID:") keepLine block
          let titleMatch := scanLabelCap (str "Title:") keepLine block
          let relevanceMatch := scanLabelCap (str "Relevance:") Char.isDigit block
          let contentMatch := scanLabelCap (str "Content:") keepLine block
          let lastAccessedMatch := scanLabelCap (str "Last accessed:") keepLine block
          match idMatch, titleMatch, contentMatch with
          | some idc, some tc, some cc =>
            acc ++ [⟨String.mk (trimChars idc), String.mk (trimChars tc),
                     relevanceMatch.map digitsToNat, String.mk (trimChars cc),
                     lastAccessedMatch.map (fun l => String.mk (trimChars l))⟩]
          | _, _, _ => acc)
      []
  else scanAll matchResourceBlock (resourcesText.data.length + 1) resourcesText.data

/-! ## `parseToolDetails` -/

/-- Embeds `parseToolDetails` (tool-detail extraction from a message that
carries `Tool:` / `Description:` / `Parameters:` / `Example:` labels). -/
def parseToolDetails (toolText : String) : Option ToolDetails :=
  let cs := toolText.data
  let toolMatch := scanLabelCap (str "Tool:") (· ≠ '\n') cs
  let descMatch := scanLabelCap (str "Description:") (· ≠ '\n') cs
  let paramsMatch := paramsCap cs
  match toolMatch with
  | none => none
  | some namec =>
    let base : ToolDetails :=
      { name := String.mk (trimChars namec)
        description := (descMatch.map (fun d => String.mk (trimChars d))).getD "" }
    let withParams :=
      match paramsMatch with
      | none => base
      | some ptext =>
        match jsonParse (trimChars ptext) with
        | some j => { base with parameters := some j }
        | none =>
          let pairs :=
            (splitNl ptext).foldl
              (fun acc line =>
                match keyLineCap line with
                | some key =>
                  let tyMatch := quotedValCap (str "type\":") line
                  let deMatch := quotedValCap (str "description\":") line
                  acc ++ [(String.mk key, Json.obj
                    [("type", Json.str ((tyMatch.map String.mk).getD "unknown")),
                     ("description", Json.str ((deMatch.map String.mk).getD ""))])]
                | none => acc)
              []
          if pairs.isEmpty then
            { base with parameters := some (Json.obj [("raw", Json.str (String.mk ptext))]) }
          else { base with parameters := some (Json.obj pairs) }
    let exampleMatch :=
      match exampleQuoteCap '"' cs with
      | some e => some e
      | none =>
        match exampleQuoteCap '\x27' cs with
        | some e => some e
        | none =>
          -- the third source pattern repeats the first; kept for fidelity
          match exampleQuoteCap '"' cs with
          | some e => some e
          | none => exampleActionCap cs
    match exampleMatch with
    | some e =>
      some { withParams with
        exampleText := some (String.mk (replaceEscBackslash (replaceEscQuote (trimChars e)))) }
    | none => some withParams

/-! ## Name extraction -/

/-- Embeds `extractToolName` (ordered tool-name patterns over a message). -/
def extractToolName (message : String) : Option String :=
  let cs := message.data
  let pats : List (Chars → Option Chars) :=
    [wordThenLitCap (str " API"), wordThenLitCap (str " request"),
     wordThenLitCap (str " database"), wordThenLitCap (str " search"),
     callUnderscoreCap, wordThenLitCap (str "_agent")]
  (pats.findSome? (fun f => f cs)).map String.mk

/-- The keyword tails of the eleven anchored agent-name patterns of
`extractActualAgentName`, in source order. -/
def agentNamePatterns : List (List Chars) :=
  [[str "model", str "response:"], [str "generating"], [str "processing"],
   [str "thought", str "match:"], [str "action", str "match:"],
   [str "observation", str "match:"], [str "response", str "match:"],
   [str "detected"], [str "preserving"], [str "produced"], [str "completed"]]

/-- Embeds `extractActualAgentName` (agent name taken from the message text
itself, e.g. a capitalized phrase ending in `Agent` before a known verb). -/
def extractActualAgentName (message : String) : Option String :=
  (agentNamePatterns.findSome? (fun kws => agentPatternCap kws message.data)).map
    (fun c => String.mk (trimChars c))

/-- Embeds `extractActionNumber`. -/
def extractActionNumber (message : String) : Option (Nat × Nat) :=
  actionNumberCap message.data

/-! ## `extractAgentContent` -/

/-- The suffix of the text starting at the first occurrence of `pat`
(models `indexOf` + `substring(idx)`). -/
def fromFirst : Chars → Chars → Option Chars
  | cs, [] => some cs
  | [], _ :: _ => none
  | h :: t, n =>
    if n.isPrefixOf (h :: t) then some (h :: t) else fromFirst t n

/-- Models `/Observation:\s*([\s\S]*?)$/` (standalone observation: from the
first label to the end of the text). -/
def standaloneObsCap (content : Chars) : Option Chars :=
  (afterFirst content (str "Observation:")).map (fun r => r.dropWhile isWs)

/-- Embeds `extractAgentContent` (structured reasoning-section, resource,
tool and observation extraction from a message). -/
def extractAgentContent (message : String) : ExtractedContent :=
  let msg := message.data
  -- priority 1 moves `content` past `model response:`; priorities 2-4 of the
  -- source keep the message unchanged, which is also the default
  let content :=
    if containsStr msg (str "model response:") then
      trimChars ((afterFirst msg (str "model response:")).getD msg)
    else msg
  let thought :=
    ((sectionCap (str "Thought:")
        [str "Action:", str "Observation:", str "Response:"] content).map
      (fun c => String.mk (trimChars c))).getD ""
  let actionSection :=
    ((sectionCap (str "Action:") [str "Observation:", str "Response:"] content).map
      (fun c => String.mk (trimChars c))).getD ""
  let observation0 :=
    ((sectionCap (str "Observation:") [str "Response:"] content).map
      (fun c => String.mk (trimChars c))).getD ""
  let response0 :=
    ((sectionCap (str "Response:") [] content).map
      (fun c => String.mk (trimChars c))).getD ""
  -- standalone observation messages (condition on the raw message)
  let observation1 :=
    if thought = "" && actionSection = "" && response0 = "" &&
        containsStr msg (str "Observation:") then
      match standaloneObsCap content with
      | some oc => String.mk (trimChars oc)
      | none => observation0
    else observation0
  -- a model response with no structured sections is all response
  let response1 :=
    if thought = "" && actionSection = "" && response0 = "" && observation1 = "" &&
        containsStr msg (str "model response:") then
      match afterFirst msg (str "model response:") with
      | some rest => String.mk ((trimChars rest).dropWhile (· = '\n'))
      | none => response0
    else response0
  let associatedResources :=
    if containsStr content (str "Associated Resources:") ||
        containsStr content (str "[Memory Resources]") then
      match fromFirst content (str "Associated Resources:") with
      | some resourcesText => parseAssociatedResources (String.mk resourcesText)
      | none => []
    else []
  let observation2 :=
    if containsStr content (str "Available service tools:") then
      match fromFirst content (str "Available service tools:") with
      | some toolsText => if observation1 = "" then String.mk toolsText else observation1
      | none => observation1
    else observation1
  let toolDetails :=
    if containsStr content (str "Tool:") && containsStr content (str "Parameters:") then
      parseToolDetails (String.mk content)
    else none
  { thought := some thought
    action := some actionSection
    observation := some observation2
    response := some response1
    associatedResources := some associatedResources
    toolDetails := toolDetails }

/-! ## `convertLogEntryToStep` -/

/-- The `details` sub-record copied from a log entry. -/
def mkDetails (entry : LogEntry) : StepDetails :=
  { logger := entry.logger, module := entry.module, funcName := entry.funcName
    component := entry.component, action := entry.action, pathname := entry.pathname
    lineno := entry.lineno, exception := entry.exception, level := entry.level }

/-- Models `replace(/^Observation:\s*[/]/` at the start of an observation
payload (drops the label and the whitespace after it). -/
def stripObsPrefix (cs : Chars) : Chars :=
  if (str "Observation:").isPrefixOf cs then (cs.drop 12).dropWhile isWs else cs

/-- The observation-payload summary of the `Adding observation to messages:`
branch: the display text and the structured `results` value (if any) derived
from the parsed JSON. -/
def observationSummary (parsed : Json) (defaultText : String) : String × Option Json :=
  if jsonOptTruthy (parsed.getField? "status") && jsonOptTruthy (parsed.getField? "message") then
    let text := "Status: " ++ jsToString ((parsed.getField? "status").getD .null) ++
      "\nMessage: " ++ jsToString ((parsed.getField? "message").getD .null)
    let structured :=
      if jsonOptTruthy (parsed.getField? "results") then parsed.getField? "results" else none
    (text, structured)
  else
    match parsed with
    | .arr elems =>
      let count := elems.length
      match elems with
      | [] => ("Empty result set", some (Json.arr elems))
      | firstItem :: _ =>
        let fieldTruthy := fun (k : String) => jsonOptTruthy (firstItem.getField? k)
        let fieldText := fun (k : String) => jsToString ((firstItem.getField? k).getD .null)
        let isDatabaseResource :=
          fieldTruthy "id" && fieldTruthy "title" && fieldTruthy "content" && fieldTruthy "type"
        let isEmailData :=
          fieldTruthy "subject" || fieldTruthy "from" || fieldTruthy "body" || fieldTruthy "sender"
        let more := if count > 1 then "\n... and " ++ Nat.repr (count - 1) ++ " more items" else ""
        let text :=
          if isDatabaseResource then
            "Found " ++ Nat.repr count ++ " matching items" ++
              (if fieldTruthy "title" then "\nFirst resource: \"" ++ fieldText "title" ++ "\"" else "") ++
              more
          else if isEmailData then
            "Retrieved " ++ Nat.repr count ++ " items" ++
              (if fieldTruthy "subject" then "\nFirst email: \"" ++ fieldText "subject" ++ "\"" else "") ++
              more
          else
            "Retrieved " ++ Nat.repr count ++ " items" ++
              (if fieldTruthy "subject" then "\nFirst item: \"" ++ fieldText "subject" ++ "\""
               else if fieldTruthy "title" then "\nFirst item: \"" ++ fieldText "title" ++ "\""
               else if fieldTruthy "name" then "\nFirst item: \"" ++ fieldText "name" ++ "\""
               else "") ++
              more
        (text, some (Json.arr elems))
    | .obj fields =>
      let keys := jsonObjKeys fields
      let text :=
        "Data object with " ++ Nat.repr keys.length ++ " fields" ++
          (if keys.length > 0 then
            "\nFields: " ++ String.intercalate ", " (keys.take 5) ++
              (if keys.length > 5 then " ... and " ++ Nat.repr (keys.length - 5) ++ " more" else "")
           else "")
      (text, some (Json.arr [Json.obj fields]))
    | _ =>
      -- unreachable for a bracket-delimited capture; kept total
      (defaultText, none)

/-- The infrastructure-message suppression list of `convertLogEntryToStep`. -/
def infrastructurePatterns : List Chars :=
  [str "=== Authentication successful ===",
   str "Received chat request:",
   str "Processing chat request -",
   str "Successfully processed chat response",
   str "Request completed:",
   str "Settings updated:",
   str "Integration in progress:",
   str "Using user\x27s preferred model:",
   str "User search config:",
   str "Initialized AnthropicProvider",
   str "Generated response from AnthropicProvider",
   str "Agent initialized with system prompt",
   str "Starting query processing",
   str "Query completed successfully",
   str "Agent produced observation",
   str "Agent produced final response",
   str "processing actions from response",
   str "generating model response with",
   str "Adding observation to messages:",
   str "generated response from",
   str "Generated response from",
   str "Action 1/", str "Action 2/", str "Action 3/", str "Action 4/", str "Action 5/",
   str "Action 6/", str "Action 7/", str "Action 8/",
   str "thought match:", str "action match:", str "observation match:", str "response match:",
   str "processing mid-process response",
   str "processing final response"]

/-- The non-agent logger suppression list. -/
def nonAgentLoggers : List String :=
  ["app.auth", "app.endpoints.chat", "app.main"]

/-- Embeds `convertLogEntryToStep`: ordered classification of one log entry
into a step, or `none` when the record is discarded. -/
def convertLogEntryToStep (entry : LogEntry) (index : Nat) : Option AgentStep :=
  let stepId := "step_" ++ Nat.repr index
  let msg := entry.message.data
  if containsStr msg (str "Received chat request:") then
    let userMessage :=
      match chatMessageCap msg with
      | some m => String.mk m
      | none => "Unknown request"
    let requestId : Option String :=
      match requestIdCap msg with
      | some r => some (String.mk r)
      | none => entry.request_id
    let historyCount :=
      match historyCountCap msg with
      | some d => digitsToNat d
      | none => 0
    let preferences :=
      match preferencesCap msg with
      | some p => String.mk p
      | none => ""
    some
      { id := stepId, type := .initial_request, timestamp := entry.timestamp
        agent_name := some "User", title := "Initial Request", content := userMessage
        extractedContent :=
          { response := some userMessage, fullContent := some entry.message
            requestDetails := some ⟨jsOrDefault requestId "", historyCount, preferences⟩ }
        actionNumber := none, details := mkDetails entry
        user_id := entry.user_id, request_id := entry.request_id, status := "success" }
  else if containsStr msg (str "Integration in progress. Now using model:") then
    -- the source also computes an unused `agentType` from the second capture
    let model :=
      match modelForCap msg with
      | some (m, _) => String.mk m
      | none => "Unknown model"
    let actualAgentName := jsOrDefault entry.agent_name "Integrations Agent"
    some
      { id := stepId, type := .intelligence_change, timestamp := entry.timestamp
        agent_name := some actualAgentName
        title := actualAgentName ++ " Integration Started"
        content := entry.message
        extractedContent :=
          { response := some ("Integration in progress. Now using model: " ++ model)
            fullContent := some entry.message }
        actionNumber := none, details := mkDetails entry
        user_id := entry.user_id, request_id := entry.request_id, status := "success" }
  else if containsStr msg (str "Intelligence upgraded to level") then
    let level :=
      match intelligenceLevelCap msg with
      | some d => String.mk d
      | none => "unknown"
    let actualAgentName := jsOrDefault entry.agent_name "Agent"
    some
      { id := stepId, type := .intelligence_change, timestamp := entry.timestamp
        agent_name := some actualAgentName
        title := actualAgentName ++ " Intelligence Upgrade"
        content := entry.message
        extractedContent :=
          { response := some ("Intelligence upgraded to level " ++ level)
            fullContent := some entry.message }
        actionNumber := none, details := mkDetails entry
        user_id := entry.user_id, request_id := entry.request_id, status := "success" }
  else if containsStr msg (str "Adding observation to messages:") then
    let obsContent :=
      trimChars ((afterFirst msg (str "Adding observation to messages:")).getD [])
    let cleanContent := stripObsPrefix obsContent
    let actualAgentName := jsOrOpt (extractActualAgentName entry.message) entry.agent_name
    let displayAgentName := jsOrDefault actualAgentName "Agent"
    let summary :=
      match jsonBlobCap cleanContent with
      | none => (String.mk cleanContent, none)
      | some jsonString =>
        match jsonParse jsonString with
        | none => (String.mk cleanContent, none)
        | some parsed => observationSummary parsed (String.mk cleanContent)
    some
      { id := stepId, type := .agent_response, timestamp := entry.timestamp
        agent_name := jsOrOpt actualAgentName entry.agent_name
        title := displayAgentName ++ " Observation"
        content := entry.message
        extractedContent := { observation := some summary.1, observationData := summary.2 }
        actionNumber := none, details := mkDetails entry
        user_id := entry.user_id, request_id := entry.request_id, status := "success" }
  else
    match resourceAdditionCap msg with
    | some (namec, digits, contentOpt) =>
      let agentName := String.mk namec
      let resourceCount := digitsToNat digits
      let resourceContent :=
        match contentOpt with
        | some c => String.mk c
        | none => ""
      let parsedResources :=
        if resourceContent ≠ "" && containsStr resourceContent.data (str "Relevant Resources:") then
          (scanAll injectedResourceMatch (resourceContent.data.length + 1) resourceContent.data).map
            (fun p => (⟨String.mk p.1, String.mk p.2.1, none, String.mk p.2.2, none⟩ : Resource))
        else []
      some
        { id := stepId, type := .resource_retrieval, timestamp := entry.timestamp
          agent_name := some agentName, title := "Injected Resources"
          content :=
            if resourceContent ≠ "" then
              "Added " ++ Nat.repr resourceCount ++
                " relevant resources to chat context:\n" ++ resourceContent
            else "Added " ++ Nat.repr resourceCount ++ " relevant resources to chat context"
          extractedContent :=
            { action := some entry.message, resourceCount := some resourceCount
              resourceContent := some resourceContent
              associatedResources :=
                if parsedResources.isEmpty then none else some parsedResources }
          actionNumber := none, details := mkDetails entry
          user_id := entry.user_id, request_id := entry.request_id, status := "success" }
    | none =>
      if containsStr msg (str "using standard (uncached) system prompt") ||
          containsStr msg (str "using CACHED system prompt") then
        none
      else if optStrTruthy entry.system_prompt ||
          (str "system prompt:").isPrefixOf (lowerChars (trimChars msg)) then
        let fromField := entry.system_prompt.getD ""
        let promptText :=
          if fromField ≠ "" then fromField
          else
            String.mk (trimChars
              (if ciIsPrefixOf (str "System Prompt:") msg then msg.drop 14 else msg))
        let actualAgentName := extractActualAgentName entry.message
        let displayAgentName := jsOrDefault (jsOrOpt actualAgentName entry.agent_name) "Agent"
        some
          { id := stepId, type := .system_prompt, timestamp := entry.timestamp
            agent_name := jsOrOpt actualAgentName entry.agent_name
            title := displayAgentName ++ " System Prompt"
            content := promptText
            extractedContent :=
              { response := some promptText, systemPrompt := some promptText
                systemPromptCache := parseSystemPromptCache promptText }
            actionNumber := none, details := mkDetails entry
            user_id := entry.user_id, request_id := entry.request_id
            status := if entry.level = "ERROR" then "error" else "success" }
      else
        let lmsg := lowerChars msg
        let shouldInclude :=
          containsStr msg (str "model response:") ||
          containsStr msg (str "Associated Resources:") ||
          containsStr msg (str "Observation: Observation: Available service tools:") ||
          containsStr msg (str "[Memory Resources]") ||
          containsStr msg (str "Executing service tool") ||
          containsStr msg (str "Successfully executed service tool") ||
          (containsStr msg (str "Tool:") && containsStr msg (str "Parameters:")) ||
          (actionNumberCap msg).isSome ||
          containsStr msg (str "Fetching truncated resources") ||
          (containsStr msg (str "Found") && containsStr msg (str "truncated resources")) ||
          (containsStr msg (str "Added") && containsStr msg (str "integration script tags")) ||
          entry.level = "ERROR" ||
          containsStr lmsg (str "failed") ||
          containsStr lmsg (str "error")
        if !shouldInclude && infrastructurePatterns.any (fun p => containsStr msg p) then
          none
        else if !shouldInclude && nonAgentLoggers.contains entry.logger &&
            entry.level ≠ "ERROR" then
          none
        else
          let actualAgentName := extractActualAgentName entry.message
          let displayAgentName := jsOrDefault (jsOrOpt actualAgentName entry.agent_name) "Agent"
          let classified : Option (StepType × String) :=
            if containsStr msg (str "model response:") then
              some (.agent_response,
                if containsStr msg (str "Thought:") || containsStr msg (str "Action:") ||
                    containsStr msg (str "Observation:") || containsStr msg (str "Response:") then
                  displayAgentName ++ " Reasoning"
                else displayAgentName ++ " Response")
            else if (match entry.action with
                | some a => containsStr a.data (str "fetch_service_resources")
                | none => false) ||
                containsStr msg (str "Fetching truncated resources") ||
                (containsStr msg (str "Found") && containsStr msg (str "truncated resources")) ||
                (containsStr msg (str "Added") && containsStr msg (str "integration script tags")) then
              some (.resource_retrieval, displayAgentName ++ " Resource Retrieval")
            else if (match entry.action with
                | some a => containsStr a.data (str "service_tool_call")
                | none => false) ||
                containsStr msg (str "Executing service tool") ||
                containsStr msg (str "Successfully executed service tool") then
              some (.tool_execution, displayAgentName ++ " Tool Execution")
            else if (actionNumberCap msg).isSome then
              some (.agent_response, displayAgentName ++ " Action Progress")
            else if containsStr msg (str "Observation:") &&
                (containsStr msg (str "Associated Resources:") ||
                 containsStr msg (str "Available service tools:") ||
                 containsStr msg (str "[Memory Resources]") ||
                 containsStr msg (str "SMS sent successfully")) then
              some (.agent_response, "Observation")
            else if containsStr msg (str "Tool:") && containsStr msg (str "Parameters:") then
              some (.tool_execution, "Tool Details")
            else if entry.level = "ERROR" ||
                containsStr msg (str "Observation: Error:") ||
                containsStr lmsg (str "failed") ||
                containsStr lmsg (str "error") then
              some (.error, "Error Occurred")
            else none
          match classified with
          | none => none
          | some (stepType, title) =>
            let ec0 := extractAgentContent entry.message
            let ec :=
              if stepType = .resource_retrieval then
                ({ action := some entry.message
                   service_name := entry.service_name } : ExtractedContent)
              else if stepType = .tool_execution && ec0.toolDetails.isNone then
                ({ action := some entry.message } : ExtractedContent)
              else ec0
            some
              { id := stepId, type := stepType, timestamp := entry.timestamp
                agent_name := jsOrOpt actualAgentName entry.agent_name
                title := title, content := entry.message
                extractedContent := ec
                actionNumber := actionNumberCap msg
                details := mkDetails entry
                user_id := entry.user_id, request_id := entry.request_id
                status := if entry.level = "ERROR" then "error" else "success" }

/-- Embeds `isThoughtStep`: a step counts towards `total_steps` when its
content carries a `Thought:` marker or its extracted thought is non-blank. -/
def isThoughtStep (step : AgentStep) : Bool :=
  containsStr step.content.data (str "Thought:") ||
    (match step.extractedContent.thought with
     | some t => !(trimChars t.data).isEmpty
     | none => false)

/-! ## `parseAgentRequests` -/

/-- Does a record open a conversation window? -/
def isStartMarker (e : LogEntry) : Bool :=
  containsStr e.message.data (str "Received chat request:") ||
    e.message = "=== TEST SESSION START ==="

/-- Does a record close the open conversation window? -/
def isEndMarker (e : LogEntry) : Bool :=
  containsStr e.message.data (str "Request completed:") ||
    e.message = "=== TEST SESSION END ==="

/-- JavaScript `Array.prototype.slice(a, b)` for in-range indices. -/
def jsSlice (l : List α) (a b : Nat) : List α := (l.take b).drop a

/-- Per-step summary/step accumulation state of the `forEach` loop inside
`parseAgentRequests`. -/
structure BuildState where
  steps : List AgentStep
  summary : Summary

/-- One iteration of the `forEach` over a conversation window: convert the
entry, append the step and update the summary counters. The source applies
the five summary updates in sequence on one object; they touch disjoint
fields, so they are transcribed as a single record update. -/
def stepFold (state : BuildState) (index : Nat) (requestEntry : LogEntry) : BuildState :=
  match convertLogEntryToStep requestEntry index with
  | none => state
  | some step =>
    { steps := state.steps ++ [step]
      summary :=
        { total_steps :=
            if isThoughtStep step then state.summary.total_steps + 1
            else state.summary.total_steps
          agents_involved :=
            match step.agent_name with
            | some an =>
              if an ≠ "" && !state.summary.agents_involved.contains an then
                state.summary.agents_involved ++ [an]
              else state.summary.agents_involved
            | none => state.summary.agents_involved
          errors :=
            if requestEntry.level = "ERROR" ||
                containsStr requestEntry.message.data (str "Observation: Error:") ||
                containsStr requestEntry.message.data (str "Error:") then
              state.summary.errors + 1
            else state.summary.errors
          resources_retrieved :=
            if step.type = .resource_retrieval then
              state.summary.resources_retrieved + 1
            else state.summary.resources_retrieved
          tools_used :=
            if step.type = .tool_execution then
              match extractToolName requestEntry.message with
              | some toolName =>
                if toolName ≠ "" && !state.summary.tools_used.contains toolName then
                  state.summary.tools_used ++ [toolName]
                else state.summary.tools_used
              | none => state.summary.tools_used
            else state.summary.tools_used } }

/-- Build one `AgentRequest` from the records of a closed window (the body
of the `if (requestEntries.length > 0)` block of `parseAgentRequests`). -/
def buildRequest (requestEntries : List LogEntry) : AgentRequest :=
  let userId :=
    requestEntries.foldl
      (fun u e => if optStrTruthy e.user_id && u = "unknown_user" then e.user_id.getD "" else u)
      "unknown_user"
  let requestId :=
    requestEntries.foldl
      (fun r e => if optStrTruthy e.request_id && r = "" then e.request_id.getD "" else r)
      ""
  let requestKey := if requestId ≠ "" then userId ++ "_" ++ requestId else userId
  let final :=
    requestEntries.enum.foldl (fun st p => stepFold st p.1 p.2)
      (⟨[], ⟨0, [], [], 0, 0⟩⟩ : BuildState)
  { id := requestKey, user_id := some userId, request_id := some requestId
    start_time := (requestEntries.head?.map (·.timestamp)).getD ""
    end_time := ((requestEntries.getLast?).map (·.timestamp)).getD ""
    steps := final.steps, entries := requestEntries, summary := final.summary }

/-- The indexed loop of `parseAgentRequests`: `all` is the full record list
(used for window slices), the second argument the remaining records, then
the current index and the open-window start (`none` models `-1`). -/
def parseLoop (all : List LogEntry) : List LogEntry → Nat → Option Nat → List AgentRequest
  | [], _, _ => []
  | e :: rest, i, si =>
    let si' := if isStartMarker e then some i else si
    match si' with
    | some s =>
      if isEndMarker e then
        if (jsSlice all s (i + 1)).isEmpty then parseLoop all rest (i + 1) none
        else buildRequest (jsSlice all s (i + 1)) :: parseLoop all rest (i + 1) none
      else parseLoop all rest (i + 1) si'
    | none => parseLoop all rest (i + 1) none

/-- Embeds `parseAgentRequests`: group records into conversations between
`Received chat request:` (or session-start) and `Request completed:` (or
session-end) markers. -/
def parseAgentRequests (logEntries : List LogEntry) : List AgentRequest :=
  parseLoop logEntries logEntries 0 none

/-! ## Delimited-entry collection (the hook body of `useAgentFlowParser`) -/

/-- The non-blank lines of a raw text blob. -/
def nonBlankLines (logData : String) : List Chars :=
  (splitNl logData.data).filter (fun line => !(trimChars line).isEmpty)

/-- The per-line parse loop: try `JSON.parse` on each line, skip lines that
fail (a warning is emitted to the diagnostics collaborator). -/
def collectLogEntries : List Chars → List Json
  | [] => []
  | line :: rest =>
    match jsonParse line with
    | some e => e :: collectLogEntries rest
    | none => collectLogEntries rest

/-- Records produced from a delimited blob: split on newlines, drop blank
lines, parse each remaining line. -/
def parseLogLines (logData : String) : List Json :=
  collectLogEntries (nonBlankLines logData)

/-- Does a line parse as a JSON object (the record shape the specification
describes)? -/
def parsesAsJsonObject (line : Chars) : Bool :=
  match jsonParse line with
  | some j => j.isObj
  | none => false

/-- View of one parsed JSON record as a `LogEntry`. The downstream loop
reads `entry.message` of every record, which throws (and aborts the whole
invocation) when the record has no string `message`; that abort is modelled
by `none`. -/
def toLogEntry (j : Json) : Option LogEntry :=
  match j.getStr? "message" with
  | none => none
  | some m =>
    some
      { timestamp := (j.getStr? "timestamp").getD ""
        level := (j.getStr? "level").getD ""
        logger := (j.getStr? "logger").getD ""
        message := m
        module := j.getStr? "module", pathname := j.getStr? "pathname"
        lineno := j.getField? "lineno", funcName := j.getStr? "funcName"
        component := j.getStr? "component", action := j.getStr? "action"
        agent_name := j.getStr? "agent_name", user_id := j.getStr? "user_id"
        request_id := j.getStr? "request_id", exception := j.getField? "exception"
        system_prompt := j.getStr? "system_prompt"
        service_name := j.getStr? "service_name" }

/-- End-to-end conversion of a delimited blob into conversations (the body
of the `useEffect` in `useAgentFlowParser`); `none` models the caught
exception path that reports an error and produces no requests. -/
def parseLogBlob (logData : String) : Option (List AgentRequest) :=
  match (parseLogLines logData).mapM toLogEntry with
  | some entries => some (parseAgentRequests entries)
  | none => none

/-! ## Concrete fixtures -/

/-- A chat-request record (user `U1`, request `R1`, message `hi`). -/
def chatEntryHi : LogEntry :=
  { timestamp := "2025-01-01T00:00:00", level := "INFO", logger := "app.agents.chat"
    message := "Received chat request: message=\x27hi\x27, history_count=0"
    user_id := some "U1", request_id := some "R1" }

/-- A chat-request record whose user message itself reads `Thought: hi`. -/
def chatEntryThought : LogEntry :=
  { timestamp := "2025-01-01T00:00:00", level := "INFO", logger := "app.agents.chat"
    message := "Received chat request: message=\x27Thought: hi\x27, history_count=0"
    user_id := some "U1", request_id := some "R1" }

/-- A request-completed record closing the window of `R1`. -/
def completedEntry : LogEntry :=
  { timestamp := "2025-01-01T00:00:05", level := "INFO", logger := "app.endpoints.chat"
    message := "Request completed: ...", request_id := some "R1" }

/-- The two-record delimited blob of the end-to-end test: a chat request
(`U1`, `R1`, message `hi`) followed by a request-completed record (`R1`). -/
def c2blob : String :=
  "\x7b\"timestamp\": \"2025-01-01T00:00:00\", \"level\": \"INFO\", \"logger\": \"app.agents.chat\", \"message\": \"Received chat request: message=\x27hi\x27, history_count=0\", \"user_id\": \"U1\", \"request_id\": \"R1\"\x7d\n\x7b\"timestamp\": \"2025-01-01T00:00:05\", \"level\": \"INFO\", \"logger\": \"app.endpoints.chat\", \"message\": \"Request completed: ...\", \"request_id\": \"R1\"\x7d"

/-- The tool-detail message fixture
`Tool: foo / Description: bar / Parameters: JSON / Example: "do x"`. -/
def toolMsg : String :=
  "Tool: foo\nDescription: bar\nParameters: \x7b\"x\":\x7b\"type\":\"string\"\x7d\x7d\nExample: \"do x\""

/-- Claim-side count of the steps whose extracted `thought` is non-empty. -/
def nonEmptyThoughtCount (steps : List AgentStep) : Nat :=
  (steps.filter (fun s => (s.extractedContent.thought.getD "") ≠ "")).length

/-! ## Claims -/

set_option maxRecDepth 40000

/-- C2: the two-record delimited input (chat request `message='hi'`,
`history_count=0`, user `U1`, request `R1`; then a later
`Request completed: ...` record with request `R1`) produces exactly one
conversation, keyed `U1_R1` on `(U1, R1)`, containing exactly one step, of
type `initial_request`, with content `hi`. -/
theorem c2_end_to_end :
    (parseLogBlob c2blob).map (fun rs => rs.map (fun r =>
      (r.id, r.user_id, r.request_id,
        r.steps.map (fun s => (s.type, s.content))))) =
      some [("U1_R1", some "U1", some "R1", [(StepType.initial_request, "hi")])] := by
  rfl

/-- C4 (counterexample): the one-line blob `true` parses as a JSON value but
not as a JSON object, yet entry parsing produces one record from it — so the
produced records are not "exactly those non-blank lines that parse as a JSON
object". -/
theorem c4_counterexample :
    (parseLogLines "true").length = 1 ∧
      ((nonBlankLines "true").filter parsesAsJsonObject).length = 0 := by
  exact ⟨rfl, rfl⟩

/-- C4 (amended): entry parsing never aborts and produces, in original
order, exactly those non-blank lines that parse as a JSON value (not
necessarily an object); each line that fails to parse is skipped and
processing continues. -/
theorem c4_amended (logData : String) :
    parseLogLines logData = (nonBlankLines logData).filterMap jsonParse := by
  suffices h : ∀ lines : List Chars, collectLogEntries lines = lines.filterMap jsonParse by
    exact h _
  intro lines
  induction lines with
  | nil => rfl
  | cons l t ih =>
    simp only [collectLogEntries, List.filterMap_cons]
    cases jsonParse l <;> simp [ih]

/-- C7 (counterexample): on the fixture message the `Parameters:` capture
fails (the pattern requires the closing brace to start a line), so no
`parameters` field is produced, contradicting the claimed
`parameters = {x: {type: string}}`. -/
theorem c7_counterexample :
    (parseToolDetails toolMsg).map (fun td => td.parameters.isSome) = some false := by
  rfl

/-- C7 (amended): on the fixture message, tool-detail extraction yields
name `foo`, description `bar`, example `do x`, and no parameters (the
single-line `Parameters:` JSON is not captured because the multi-line
pattern requires a newline immediately before the closing brace). -/
theorem c7_amended :
    parseToolDetails toolMsg =
      some { name := "foo", description := "bar", parameters := none
             exampleText := some "do x" } := by
  rfl

/-- C9: parsing is deterministic — the embedding of the log-to-flow
conversion is a pure function of the blob (the source consults no clock and
no randomness on this path), so two invocations on the same blob are
definitionally equal. -/
theorem c9_deterministic (logData : String) :
    parseLogBlob logData = parseLogBlob logData := rfl

/-- C1 (counterexample): a conversation whose only step is the initial
request `Thought: hi` has `summary.total_steps = 1` (the step content
contains `Thought:`) although no step has a non-empty extracted thought —
so `total_steps` is not the count of steps with non-empty
`extracted.thought`. -/
theorem c1_counterexample :
    ((parseAgentRequests [chatEntryThought, completedEntry]).map
      (fun r => (r.summary.total_steps, nonEmptyThoughtCount r.steps, r.steps.length))) =
      [(1, 0, 1)] := by
  rfl

/-- C3 (counterexample): a record with `level = "ERROR"` whose message
carries the `Received chat request:` marker is classified
`initial_request`, not `error` — the ERROR level does not override the
earlier classification rules. -/
theorem c3_counterexample :
    ({ level := "ERROR",
       message := "Received chat request: message=\x27hi\x27, history_count=0" : LogEntry }).level
        = "ERROR" ∧
    (convertLogEntryToStep
      { level := "ERROR",
        message := "Received chat request: message=\x27hi\x27, history_count=0" } 0).map (·.type) =
      some StepType.initial_request ∧
    StepType.initial_request ≠ StepType.error := by
  exact ⟨rfl, rfl, by decide⟩

/-- C5 (counterexample): in the two-record conversation the closing
`Request completed:` record produces no step, so `end_time` (the closing
record's timestamp, `00:00:05`) differs from the timestamp of the last step
added (`00:00:00`). -/
theorem c5_counterexample :
    ((parseAgentRequests [chatEntryHi, completedEntry]).map
      (fun r => (r.end_time, r.steps.map (·.timestamp)))) =
      [("2025-01-01T00:00:05", ["2025-01-01T00:00:00"])] := by
  rfl

/-- C6 (counterexample): the empty prompt text contains no cache marker,
yet extraction returns `undefined` rather than a single uncached full-text
section. -/
theorem c6_counterexample : parseSystemPromptCache "" = none := rfl

/-! ## Window lemmas -/

/-- Every conversation produced by the grouping loop is built from some
non-empty window of records. -/
theorem mem_parseLoop :
    ∀ (l all : List LogEntry) (i : Nat) (si : Option Nat) (r : AgentRequest),
      r ∈ parseLoop all l i si →
      ∃ sub : List LogEntry, sub ≠ [] ∧ r = buildRequest sub := by
  intro l
  induction l with
  | nil => intro all i si r h; simp [parseLoop] at h
  | cons e rest ih =>
    intro all i si r h
    rw [parseLoop] at h
    split at h
    · split at h
      · split at h
        · exact ih all (i + 1) none r h
        · rcases List.mem_cons.mp h with hEq | hMem
          · refine ⟨_, ?_, hEq⟩
            rename_i hne
            simpa using hne
          · exact ih all (i + 1) none r hMem
      · exact ih all (i + 1) _ r h
    · exact ih all (i + 1) none r h

/-- C5 (amended): every produced conversation spans a non-empty record
window, and `start_time`/`end_time` are the timestamps of the first/last
*record* of that window (not of the first/last step: window-closing records
produce no step). -/
theorem c5_amended (entries : List LogEntry) (r : AgentRequest)
    (h : r ∈ parseAgentRequests entries) :
    r.entries ≠ [] ∧
      r.start_time = (r.entries.head?.map (·.timestamp)).getD "" ∧
      r.end_time = (r.entries.getLast?.map (·.timestamp)).getD "" := by
  obtain ⟨sub, hne, rfl⟩ := mem_parseLoop entries entries 0 none r h
  exact ⟨hne, rfl, rfl⟩

/-- C5 (witness): the amended claim at the concrete two-record window. -/
theorem c5_witness :
    (buildRequest [chatEntryHi, completedEntry]).entries ≠ [] ∧
      (buildRequest [chatEntryHi, completedEntry]).start_time =
        (((buildRequest [chatEntryHi, completedEntry]).entries.head?.map (·.timestamp)).getD "") ∧
      (buildRequest [chatEntryHi, completedEntry]).end_time =
        (((buildRequest [chatEntryHi, completedEntry]).entries.getLast?.map (·.timestamp)).getD "") :=
  c5_amended [chatEntryHi, completedEntry] (buildRequest [chatEntryHi, completedEntry])
    (List.mem_singleton.mpr rfl)

/-! ## Summary lemmas -/

/-- The per-entry fold appends exactly the converted step (if any). -/
theorem stepFold_steps (st : BuildState) (i : Nat) (e : LogEntry) :
    (stepFold st i e).steps = st.steps ++ (convertLogEntryToStep e i).toList := by
  unfold stepFold
  cases convertLogEntryToStep e i with
  | none => simp
  | some step => simp

/-- The per-entry fold increments `total_steps` exactly for thought steps. -/
theorem stepFold_total (st : BuildState) (i : Nat) (e : LogEntry) :
    (stepFold st i e).summary.total_steps =
      st.summary.total_steps +
        ((convertLogEntryToStep e i).toList.filter isThoughtStep).length := by
  unfold stepFold
  cases convertLogEntryToStep e i with
  | none => simp
  | some step =>
    simp only [Option.toList, List.filter_cons, List.filter_nil]
    by_cases hT : isThoughtStep step <;> simp [hT]

/-- The `total_steps` invariant is preserved by the whole window fold. -/
theorem foldl_stepFold_total (pairs : List (Nat × LogEntry)) (st : BuildState)
    (h : st.summary.total_steps = (st.steps.filter isThoughtStep).length) :
    (pairs.foldl (fun s p => stepFold s p.1 p.2) st).summary.total_steps =
      ((pairs.foldl (fun s p => stepFold s p.1 p.2) st).steps.filter isThoughtStep).length := by
  induction pairs generalizing st with
  | nil => exact h
  | cons p t ih =>
    apply ih
    rw [stepFold_total, stepFold_steps, List.filter_append, List.length_append, h]

/-- `total_steps` of a built conversation counts its thought steps. -/
theorem buildRequest_total (sub : List LogEntry) :
    (buildRequest sub).summary.total_steps =
      ((buildRequest sub).steps.filter isThoughtStep).length := by
  unfold buildRequest
  exact foldl_stepFold_total _ _ rfl

/-- C1 (amended): for every conversation produced by the parser,
`summary.total_steps` equals the number of steps accepted by
`isThoughtStep` — steps whose content contains `Thought:` *or* whose
extracted thought is non-blank — and this count is at most
`steps.length`. -/
theorem c1_amended (entries : List LogEntry) (r : AgentRequest)
    (h : r ∈ parseAgentRequests entries) :
    r.summary.total_steps = (r.steps.filter isThoughtStep).length ∧
      r.summary.total_steps ≤ r.steps.length := by
  obtain ⟨sub, -, rfl⟩ := mem_parseLoop entries entries 0 none r h
  refine ⟨buildRequest_total sub, ?_⟩
  rw [buildRequest_total sub]
  exact List.length_filter_le _ _

/-- C1 (witness): the amended claim at the concrete two-record
conversation. -/
theorem c1_witness :
    (buildRequest [chatEntryThought, completedEntry]).summary.total_steps =
        ((buildRequest [chatEntryThought, completedEntry]).steps.filter isThoughtStep).length ∧
      (buildRequest [chatEntryThought, completedEntry]).summary.total_steps ≤
        (buildRequest [chatEntryThought, completedEntry]).steps.length :=
  c1_amended [chatEntryThought, completedEntry]
    (buildRequest [chatEntryThought, completedEntry]) (List.mem_singleton.mpr rfl)

/-! ## Unclosed windows -/

/-- A record suffix with no window-closing marker produces no conversation
at all. -/
theorem parseLoop_no_end (all : List LogEntry) :
    ∀ (l : List LogEntry) (i : Nat) (si : Option Nat),
      (∀ e ∈ l, isEndMarker e = false) → parseLoop all l i si = [] := by
  intro l
  induction l with
  | nil => intro i si _; rfl
  | cons e rest ih =>
    intro i si h
    have he : isEndMarker e = false := h e (by simp)
    have hr : ∀ x ∈ rest, isEndMarker x = false := fun x hx => h x (by simp [hx])
    rw [parseLoop]
    split
    · simp only [he, Bool.false_eq_true, if_false]
      exact ih _ _ hr
    · exact ih _ _ hr

/-- Processing a record prefix against the full list or against its first-k
truncation is the same when everything from position k on closes no window:
window slices taken at a close inside the prefix never reach position k. -/
theorem parseLoop_append (k : Nat) (all : List LogEntry) :
    ∀ (l1 l2 : List LogEntry) (i : Nat) (si : Option Nat),
      i + l1.length ≤ k → (∀ e ∈ l2, isEndMarker e = false) →
      parseLoop all (l1 ++ l2) i si = parseLoop (all.take k) l1 i si := by
  intro l1
  induction l1 with
  | nil =>
    intro l2 i si _ h2
    rw [List.nil_append, parseLoop_no_end all l2 i si h2]
    rfl
  | cons e rest ih =>
    intro l2 i si h1 h2
    have hik : i + 1 ≤ k := by
      simp only [List.length_cons] at h1
      omega
    have hrest : i + 1 + rest.length ≤ k := by
      simp only [List.length_cons] at h1
      omega
    have hslice : ∀ s : Nat, jsSlice (List.take k all) s (i + 1) = jsSlice all s (i + 1) := by
      intro s
      unfold jsSlice
      rw [List.take_take, Nat.min_eq_left hik]
    rw [List.cons_append, parseLoop, parseLoop]
    by_cases hs : isStartMarker e
    · simp only [hs, if_true]
      by_cases he : isEndMarker e
      · simp only [he, if_true, hslice]
        by_cases hemp : (jsSlice all i (i + 1)).isEmpty
        · simp only [hemp, if_true]
          exact ih l2 (i + 1) none hrest h2
        · simp only [hemp, Bool.false_eq_true, if_false]
          rw [ih l2 (i + 1) none hrest h2]
      · simp only [he, Bool.false_eq_true, if_false]
        exact ih l2 (i + 1) (some i) hrest h2
    · simp only [hs, Bool.false_eq_true, if_false]
      cases si with
      | none => exact ih l2 (i + 1) none hrest h2
      | some s =>
        by_cases he : isEndMarker e
        · simp only [he, if_true, hslice]
          by_cases hemp : (jsSlice all s (i + 1)).isEmpty
          · simp only [hemp, if_true]
            exact ih l2 (i + 1) none hrest h2
          · simp only [hemp, Bool.false_eq_true, if_false]
            rw [ih l2 (i + 1) none hrest h2]
        · simp only [he, Bool.false_eq_true, if_false]
          exact ih l2 (i + 1) (some s) hrest h2

/-- C10: when a window-opening record at position `k` is never followed by a
window-closing record, the records from `k` to the end produce no
conversation: the parse of the whole list equals the parse of its first `k`
records. -/
theorem c10_unclosed_window (entries : List LogEntry) (k : Nat) (hk : k < entries.length)
    (_hstart : isStartMarker (entries.get ⟨k, hk⟩) = true)
    (hnoend : ∀ e ∈ entries.drop k, isEndMarker e = false) :
    parseAgentRequests entries = parseAgentRequests (entries.take k) := by
  unfold parseAgentRequests
  nth_rewrite 2 [← List.take_append_drop k entries]
  exact parseLoop_append k entries (entries.take k) (entries.drop k) 0 none
    (by simp [List.length_take]) hnoend

/-- An opening record that is never closed. -/
def unclosedStartEntry : LogEntry :=
  { message := "Received chat request: message=\x27x\x27, history_count=0" }

/-- C10 (witness): a single unclosed opening record produces no
conversation. -/
theorem c10_witness :
    parseAgentRequests [unclosedStartEntry] =
      parseAgentRequests ([unclosedStartEntry].take 0) :=
  c10_unclosed_window [unclosedStartEntry] 0 (by decide) (by rfl) (by decide)

/-! ## ERROR-level classification -/

/-- Does a record match one of the dedicated handlers that precede the
general classification chain of `convertLogEntryToStep` (initial request,
integration, intelligence upgrade, observation attachment, resource
injection, cache-notice suppression, system prompt)? -/
def matchesPreChain (e : LogEntry) : Bool :=
  containsStr e.message.data (str "Received chat request:") ||
  containsStr e.message.data (str "Integration in progress. Now using model:") ||
  containsStr e.message.data (str "Intelligence upgraded to level") ||
  containsStr e.message.data (str "Adding observation to messages:") ||
  (resourceAdditionCap e.message.data).isSome ||
  containsStr e.message.data (str "using standard (uncached) system prompt") ||
  containsStr e.message.data (str "using CACHED system prompt") ||
  optStrTruthy e.system_prompt ||
  (str "system prompt:").isPrefixOf (lowerChars (trimChars e.message.data))

/-- Does a record match one of the classification-chain rules that precede
the error rule (model response, resource retrieval, tool execution, action
progress, observation-with-resources, tool-detail block)? -/
def matchesChainAboveError (e : LogEntry) : Bool :=
  containsStr e.message.data (str "model response:") ||
  (match e.action with
   | some a => containsStr a.data (str "fetch_service_resources")
   | none => false) ||
  containsStr e.message.data (str "Fetching truncated resources") ||
  (containsStr e.message.data (str "Found") &&
    containsStr e.message.data (str "truncated resources")) ||
  (containsStr e.message.data (str "Added") &&
    containsStr e.message.data (str "integration script tags")) ||
  (match e.action with
   | some a => containsStr a.data (str "service_tool_call")
   | none => false) ||
  containsStr e.message.data (str "Executing service tool") ||
  containsStr e.message.data (str "Successfully executed service tool") ||
  (actionNumberCap e.message.data).isSome ||
  (containsStr e.message.data (str "Observation:") &&
    (containsStr e.message.data (str "Associated Resources:") ||
     containsStr e.message.data (str "Available service tools:") ||
     containsStr e.message.data (str "[Memory Resources]") ||
     containsStr e.message.data (str "SMS sent successfully"))) ||
  (containsStr e.message.data (str "Tool:") && containsStr e.message.data (str "Parameters:"))

/-- C3 (amended): a record with `level = "ERROR"` is never discarded, and
is classified `error` provided no earlier classification rule matches it —
the dedicated pre-chain handlers and the chain rules above the error rule
take precedence even over the ERROR level. -/
theorem c3_amended (e : LogEntry) (i : Nat)
    (hlvl : e.level = "ERROR")
    (hpre : matchesPreChain e = false)
    (hchain : matchesChainAboveError e = false) :
    (convertLogEntryToStep e i).map (·.type) = some StepType.error := by
  simp only [matchesPreChain, Bool.or_eq_false_iff] at hpre
  obtain ⟨⟨⟨⟨⟨⟨⟨⟨h1, h2⟩, h3⟩, h4⟩, h5⟩, h6⟩, h7⟩, h8⟩, h9⟩ := hpre
  simp only [matchesChainAboveError, Bool.or_eq_false_iff] at hchain
  obtain ⟨⟨⟨⟨⟨⟨⟨⟨⟨⟨g1, g2⟩, g3⟩, g4⟩, g5⟩, g6⟩, g7⟩, g8⟩, g9⟩, g10⟩, g11⟩ := hchain
  have h5' : resourceAdditionCap e.message.data = none := by
    cases hr : resourceAdditionCap e.message.data with
    | none => rfl
    | some v => rw [hr] at h5; simp at h5
  rw [convertLogEntryToStep]
  simp only [h1, h2, h3, h4, h5', h6, h7, h8, h9, g1, g2, g3, g4, g5, g6, g7, g8, g9,
    g10, g11, hlvl, Bool.false_eq_true, if_false, Bool.and_eq_false_iff, Bool.or_self,
    Bool.false_or, Bool.or_false, Bool.false_and, Bool.and_false]
  simp

/-- A plain ERROR-level record matched by no earlier rule. -/
def plainErrorEntry : LogEntry :=
  { level := "ERROR", logger := "app.agents.chat", message := "boom" }

/-- C3 (witness): the amended claim at a concrete ERROR record. -/
theorem c3_witness :
    (convertLogEntryToStep plainErrorEntry 0).map (·.type) = some StepType.error :=
  c3_amended plainErrorEntry 0 rfl (by decide) (by decide)

/-! ## Cache-section lemmas -/

/-- Splitting a text that contains no complete cache marker yields the text
as its single part. -/
theorem splitCacheAux_no_marker :
    ∀ (fuel : Nat) (cs acc : Chars), hasMarker cs = false →
      splitCacheAux fuel cs acc = [acc.reverse ++ cs] := by
  intro fuel
  induction fuel with
  | zero => intro cs acc _; rfl
  | succ n ih =>
    intro cs acc h
    cases cs with
    | nil => simp [splitCacheAux]
    | cons c t =>
      rw [splitCacheAux]
      have hm : matchMarker (c :: t) = none := by
        cases hmm : matchMarker (c :: t) with
        | none => rfl
        | some v => rw [hasMarker, hmm] at h; simp at h
      have ht : hasMarker t = false := by
        rw [hasMarker, hm] at h
        simpa using h
      rw [hm, ih t (c :: acc) ht]
      simp

/-- A single split part never contributes a section: the loop either skips
it or consumes it as a marker-shaped token, and in both cases ends with no
sections. -/
theorem cacheLoop_single (p : Chars) :
    cacheLoop [p] false none false [] = [] := by
  rw [cacheLoop]
  repeat' split
  all_goals first
  | rfl
  | simp_all

/-- C6 (amended): `isCached` is true exactly when some produced section is
cached; and every *non-empty* prompt text containing no complete
`[CACHED:<TYPE>]` or `[UNCACHED]` marker yields exactly one uncached
section holding the full text. (The empty text instead yields no result at
all, which is what the counterexample records.) -/
theorem c6_amended (promptText : String) :
    (∀ ci, parseSystemPromptCache promptText = some ci →
      (ci.isCached = true ↔ ∃ s ∈ ci.sections, s.cached = true)) ∧
    (promptText ≠ "" → hasMarker promptText.data = false →
      parseSystemPromptCache promptText =
        some ⟨false, [⟨promptText, false, some "full"⟩], 1⟩) := by
  constructor
  · intro ci hci
    unfold parseSystemPromptCache at hci
    by_cases hempty : promptText = ""
    · simp [hempty] at hci
    · simp only [hempty, if_false] at hci
      by_cases hmk : (containsStr promptText.data (str "[CACHED:") ||
          containsStr promptText.data (str "[UNCACHED]")) = true
      · simp only [hmk, Bool.not_true, Bool.false_eq_true, if_false,
          Option.some.injEq] at hci
        subst hci
        simp [List.any_eq_true]
      · simp only [Bool.not_eq_true] at hmk
        simp only [hmk, Bool.not_false, if_true, Option.some.injEq] at hci
        subst hci
        simp
  · intro hne hnm
    unfold parseSystemPromptCache
    simp only [hne, if_false]
    by_cases hmk : (containsStr promptText.data (str "[CACHED:") ||
        containsStr promptText.data (str "[UNCACHED]")) = true
    · have hs : splitCache promptText.data = [promptText.data] := by
        unfold splitCache
        rw [splitCacheAux_no_marker _ _ _ hnm]
        simp
      simp only [hmk, Bool.not_true, Bool.false_eq_true, if_false, hs, cacheLoop_single]
      rfl
    · simp only [Bool.not_eq_true] at hmk
      simp [hmk]

/-- C6 (witness): the amended claim at the marker-free prompt `hello`. -/
theorem c6_witness :
    parseSystemPromptCache "hello" =
        some ⟨false, [⟨"hello", false, some "full"⟩], 1⟩ ∧
      (CacheInfo.isCached ⟨false, [⟨"hello", false, some "full"⟩], 1⟩ = true ↔
        ∃ s ∈ [(⟨"hello", false, some "full"⟩ : CacheSection)], s.cached = true) :=
  have h := (c6_amended "hello").2 (by decide) (by decide)
  ⟨h, (c6_amended "hello").1 ⟨false, [⟨"hello", false, some "full"⟩], 1⟩ h⟩

/-! ## Resource-block extraction lemmas -/

/-- `takeWhile` passes over a block of accepted elements. -/
theorem takeWhile_append_of_all (p : Char → Bool) (l r : Chars)
    (h : ∀ a ∈ l, p a = true) :
    (l ++ r).takeWhile p = l ++ r.takeWhile p := by
  induction l with
  | nil => rfl
  | cons a t ih =>
    simp only [List.cons_append, List.takeWhile_cons, h a (by simp)]
    simp [ih (fun b hb => h b (by simp [hb]))]

/-- A successful whitespace-then-run capture strictly shrinks the input. -/
theorem capAfterWs_some_length (keep : Char → Bool) (minWs : Nat) (r cap rest : Chars)
    (h : capAfterWs keep minWs r = some (cap, rest)) : rest.length < r.length := by
  unfold capAfterWs at h
  split at h
  · rename_i hlt
    split at h
    · exact absurd h (by simp)
    · split at h
      · exact absurd h (by simp)
      · rename_i hcap
        simp only [Option.some.injEq, Prod.mk.injEq] at h
        obtain ⟨-, rfl⟩ := h
        have hpos : 0 < ((r.drop (r.takeWhile isWs).length).takeWhile keep).length := by
          cases hq : (r.drop (r.takeWhile isWs).length).takeWhile keep with
          | nil => rw [hq] at hcap; simp at hcap
          | cons q qs => simp [hq]
        simp only [List.length_drop]
        omega
  · rename_i hge
    split at h
    · exact absurd h (by simp)
    · rename_i hback
      simp only [Option.some.injEq, Prod.mk.injEq] at h
      obtain ⟨-, rfl⟩ := h
      have : ¬((r.reverse.takeWhile keep).reverse.isEmpty = true) := by
        intro hemp
        exact hback (by simp [hemp])
      have hr : r ≠ [] := by
        intro hnil
        exact this (by simp [hnil])
      simp [List.length_pos, hr]

/-- A successful labelled field capture strictly shrinks the input. -/
theorem fieldCap_some_length (label : Chars) (keep : Char → Bool) (s cap rest : Chars)
    (h : fieldCap label keep s = some (cap, rest)) : rest.length < s.length := by
  unfold fieldCap at h
  split at h
  · have := capAfterWs_some_length keep 0 (s.drop label.length) cap rest h
    have hd : (s.drop label.length).length ≤ s.length := by
      simp only [List.length_drop]
      omega
    omega
  · exact absurd h (by simp)

/-- A successful gap-then-field capture strictly shrinks the input. -/
theorem nlGapThen_some_length (label : Chars) (keep : Char → Bool) (s cap rest : Chars)
    (h : nlGapThen label keep s = some (cap, rest)) : rest.length < s.length := by
  unfold nlGapThen at h
  split at h
  · have := fieldCap_some_length label keep _ cap rest h
    have hd : (s.drop (s.takeWhile isWs).length).length ≤ s.length := by
      simp only [List.length_drop]
      omega
    omega
  · exact absurd h (by simp)

/-- A resource-block match strictly shrinks the input. -/
theorem matchResourceBlock_some_length (s : Chars) (res : Resource) (rest : Chars)
    (h : matchResourceBlock s = some (res, rest)) : rest.length < s.length := by
  unfold matchResourceBlock at h
  split at h
  · exact absurd h (by simp)
  · rename_i idc r1 h1
    split at h
    · exact absurd h (by simp)
    · rename_i tc r2 h2
      split at h
      · exact absurd h (by simp)
      · rename_i rc r3 h3
        split at h
        · exact absurd h (by simp)
        · rename_i cc r4 h4
          split at h
          · exact absurd h (by simp)
          · rename_i lc r5 h5
            simp only [Option.some.injEq, Prod.mk.injEq] at h
            obtain ⟨-, rfl⟩ := h
            have l1 := fieldCap_some_length _ _ _ _ _ h1
            have l2 := nlGapThen_some_length _ _ _ _ _ h2
            have l3 := nlGapThen_some_length _ _ _ _ _ h3
            have l4 := nlGapThen_some_length _ _ _ _ _ h4
            have l5 := nlGapThen_some_length _ _ _ _ _ h5
            omega

/-- `scanAll` on the empty input. -/
theorem scanAll_nil (f : Chars → Option (α × Chars)) (fuel : Nat) :
    scanAll f fuel [] = [] := by
  cases fuel <;> rfl

/-- One successful `scanAll` step. -/
theorem scanAll_match (f : Chars → Option (α × Chars)) (fuel : Nat) (cs : Chars)
    (a : α) (rest : Chars) (h : f cs = some (a, rest)) (hcs : cs ≠ []) :
    scanAll f (fuel + 1) cs = a :: scanAll f fuel rest := by
  cases cs with
  | nil => exact absurd rfl hcs
  | cons c t => rw [scanAll, h]

/-- One skipped `scanAll` step. -/
theorem scanAll_skip (f : Chars → Option (α × Chars)) (fuel : Nat) (c : Char) (t : Chars)
    (h : f (c :: t) = none) :
    scanAll f (fuel + 1) (c :: t) = scanAll f fuel t := by
  rw [scanAll, h]

/-- With enough fuel the scan result only depends on the input: any
sufficient fuel gives the canonical `length + 1` result. -/
theorem scanAll_fuel (f : Chars → Option (α × Chars))
    (Hf : ∀ s a rest, f s = some (a, rest) → rest.length < s.length) :
    ∀ (fuel : Nat) (cs : Chars), cs.length < fuel →
      scanAll f fuel cs = scanAll f (cs.length + 1) cs := by
  intro fuel
  induction fuel using Nat.strong_induction_on with
  | _ fuel ih =>
    match fuel with
    | 0 => intro cs h; omega
    | m + 1 =>
      intro cs h
      cases cs with
      | nil => rw [scanAll_nil, scanAll_nil]
      | cons c t =>
        cases hf : f (c :: t) with
        | some p =>
          obtain ⟨a, rest⟩ := p
          have hlt := Hf _ _ _ hf
          have hcs : (c :: t) ≠ [] := by simp
          rw [scanAll_match f m (c :: t) a rest hf hcs]
          have hlen : (c :: t).length + 1 = (t.length + 1) + 1 := by simp
          rw [hlen, scanAll_match f (t.length + 1) (c :: t) a rest hf hcs]
          have h1 : scanAll f m rest = scanAll f (rest.length + 1) rest := by
            apply ih m (by omega) rest
            simp only [List.length_cons] at hlt h
            omega
          have h2 : scanAll f (t.length + 1) rest = scanAll f (rest.length + 1) rest := by
            apply ih (t.length + 1) (by simp only [List.length_cons] at h; omega) rest
            simp only [List.length_cons] at hlt
            omega
          rw [h1, h2]
        | none =>
          rw [scanAll_skip f m c t hf]
          have hlen : (c :: t).length + 1 = (t.length + 1) + 1 := by simp
          rw [hlen, scanAll_skip f (t.length + 1) c t hf]
          exact ih m (by omega) t (by simp only [List.length_cons] at h; omega)

/-- Well-formedness of one symbolic resource-field value: non-empty, free
of newlines, not starting with whitespace. -/
def goodField : Chars → Bool
  | [] => false
  | c :: t => !isWs c && (c :: t).all (fun d => !(d = '\n'))

/-- Well-formedness of a symbolic relevance value: a non-empty digit run. -/
def goodDigits : Chars → Bool
  | [] => false
  | c :: t => (c :: t).all Char.isDigit

/-- A digit is not whitespace. -/
theorem isDigit_not_ws (ch : Char) (h : ch.isDigit = true) : isWs ch = false := by
  simp only [Char.isDigit, Bool.and_eq_true, decide_eq_true_eq] at h
  obtain ⟨h1, h2⟩ := h
  simp only [isWs, Char.isWhitespace, Bool.or_eq_false_iff, decide_eq_false_iff_not]
  refine ⟨⟨⟨?_, ?_⟩, ?_⟩, ?_⟩ <;> rintro rfl <;> revert h1 h2 <;> decide

/-- The greedy `\s*([C]+)` capture after a single separating space, on a
well-formed field followed by a stopping rest. -/
theorem capAfterWs_good (keep : Char → Bool) (c0 : Char) (ft rest : Chars)
    (hc0 : isWs c0 = false)
    (hall : ∀ d ∈ c0 :: ft, keep d = true)
    (hrest : rest.takeWhile keep = []) :
    capAfterWs keep 0 (' ' :: ((c0 :: ft) ++ rest)) = some (c0 :: ft, rest) := by
  have hsp : isWs ' ' = true := by decide
  have htw : ((' ' :: ((c0 :: ft) ++ rest)).takeWhile isWs) = [' '] := by
    simp [List.takeWhile_cons, List.cons_append, hsp, hc0]
  have hcap : (((c0 :: ft) ++ rest).takeWhile keep) = c0 :: ft := by
    rw [takeWhile_append_of_all keep (c0 :: ft) rest hall, hrest, List.append_nil]
  unfold capAfterWs
  rw [htw]
  rw [if_pos (by simp [List.length_cons, List.length_append])]
  rw [if_neg (by omega)]
  have hdrop : ((' ' :: ((c0 :: ft) ++ rest)).drop [' '].length) = (c0 :: ft) ++ rest := by
    simp
  rw [hdrop, hcap]
  rw [if_neg (by simp)]
  rw [List.drop_left]

/-- A labelled field matcher on a text that starts with its label. -/
theorem fieldCap_append (label : Chars) (keep : Char → Bool) (x : Chars) :
    fieldCap label keep (label ++ x) = capAfterWs keep 0 x := by
  have hp : label.isPrefixOf (label ++ x) = true := by
    rw [List.isPrefixOf_iff_prefix]
    exact List.prefix_append label x
  unfold fieldCap
  rw [if_pos hp, List.drop_left]

/-- The inter-field gap matcher on a newline followed by the next label. -/
theorem nlGapThen_cons (label : Chars) (keep : Char → Bool) (x : Chars)
    (c0 : Char) (lt : Chars) (hlbl : label = c0 :: lt) (hc0 : isWs c0 = false) :
    nlGapThen label keep ('\n' :: (label ++ x)) = fieldCap label keep (label ++ x) := by
  have hnl : isWs '\n' = true := by decide
  have htw : (('\n' :: (label ++ x)).takeWhile isWs) = ['\n'] := by
    subst hlbl
    simp [List.takeWhile_cons, List.cons_append, hnl, hc0]
  unfold nlGapThen
  rw [htw]
  simp

/-- Destructure a well-formed field value. -/
theorem goodField_elim (f : Chars) (h : goodField f = true) :
    ∃ c0 ft, f = c0 :: ft ∧ isWs c0 = false ∧ ∀ d ∈ c0 :: ft, d ≠ '\n' := by
  cases f with
  | nil => simp [goodField] at h
  | cons c t =>
    simp only [goodField, Bool.and_eq_true, Bool.not_eq_true', List.all_eq_true] at h
    obtain ⟨h1, h2⟩ := h
    exact ⟨c, t, rfl, h1, fun d hd => by simpa using h2 d hd⟩

/-- Destructure a well-formed relevance value. -/
theorem goodDigits_elim (f : Chars) (h : goodDigits f = true) :
    ∃ c0 ft, f = c0 :: ft ∧ ∀ d ∈ c0 :: ft, d.isDigit = true := by
  cases f with
  | nil => simp [goodDigits] at h
  | cons c t =>
    simp only [goodDigits, List.all_eq_true] at h
    exact ⟨c, t, rfl, h⟩

/-- The five-line block shape used to state the resource-extraction claim:
`- Resource ID: <id>`, `Title: <t>`, `Relevance: <rel>`, `Content: <c>`,
`Last accessed: <a>` on consecutive lines. -/
def resourceBlockText (rid t rel c a : Chars) : Chars :=
  str "- Resource ID:" ++ ' ' :: rid ++ '\n' :: str "Title:" ++ ' ' :: t ++
    '\n' :: str "Relevance:" ++ ' ' :: rel ++ '\n' :: str "Content:" ++ ' ' :: c ++
      '\n' :: str "Last accessed:" ++ ' ' :: a

/-- The primary five-line pattern matches one well-formed block wholly,
leaving exactly the following text. -/
theorem matchResourceBlock_block (rid t rel c a rest : Chars)
    (hrid : goodField rid = true) (ht : goodField t = true)
    (hrel : goodDigits rel = true) (hc : goodField c = true) (ha : goodField a = true)
    (hrest : rest = [] ∨ ∃ r', rest = '\n' :: r') :
    matchResourceBlock (resourceBlockText rid t rel c a ++ rest) =
      some (⟨String.mk (trimChars rid), String.mk (trimChars t),
             some (digitsToNat rel), String.mk (trimChars c),
             some (String.mk (trimChars a))⟩, rest) := by
  obtain ⟨i0, it, rfl, hi0, hiall⟩ := goodField_elim rid hrid
  obtain ⟨t0, tt, rfl, ht0, htall⟩ := goodField_elim t ht
  obtain ⟨d0, dt, rfl, hdall⟩ := goodDigits_elim rel hrel
  obtain ⟨c0, ct, rfl, hc0, hcall⟩ := goodField_elim c hc
  obtain ⟨a0, at2, rfl, ha0, haall⟩ := goodField_elim a ha
  have hrestTW : ∀ keep : Char → Bool, keep '\n' = false → rest.takeWhile keep = [] := by
    intro keep hk
    rcases hrest with rfl | ⟨r', rfl⟩
    · rfl
    · simp [List.takeWhile_cons, hk]
  have hkeepNl : (fun ch => decide (ch ≠ '\n')) '\n' = false := by simp
  have hallNl : ∀ (g : Chars), (∀ d ∈ g, d ≠ '\n') →
      ∀ d ∈ g, (fun ch => decide (ch ≠ '\n')) d = true := by
    intro g hg d hd
    simpa using hg d hd
  -- the suffixes after each captured field
  have happ : resourceBlockText (i0 :: it) (t0 :: tt) (d0 :: dt) (c0 :: ct) (a0 :: at2) ++ rest
      = str "- Resource ID:" ++ ' ' :: ((i0 :: it) ++
          '\n' :: (str "Title:" ++ ' ' :: ((t0 :: tt) ++
            '\n' :: (str "Relevance:" ++ ' ' :: ((d0 :: dt) ++
              '\n' :: (str "Content:" ++ ' ' :: ((c0 :: ct) ++
                '\n' :: (str "Last accessed:" ++ ' ' :: ((a0 :: at2) ++ rest))))))))) := by
    simp [resourceBlockText, List.append_assoc, List.cons_append]
  rw [happ]
  have hf1 : fieldCap (str "- Resource ID:") (fun ch => decide (ch ≠ '\n'))
      (str "- Resource ID:" ++ ' ' :: ((i0 :: it) ++
        '\n' :: (str "Title:" ++ ' ' :: ((t0 :: tt) ++
          '\n' :: (str "Relevance:" ++ ' ' :: ((d0 :: dt) ++
            '\n' :: (str "Content:" ++ ' ' :: ((c0 :: ct) ++
              '\n' :: (str "Last accessed:" ++ ' ' :: ((a0 :: at2) ++ rest)))))))))) =
      some (i0 :: it,
        '\n' :: (str "Title:" ++ ' ' :: ((t0 :: tt) ++
          '\n' :: (str "Relevance:" ++ ' ' :: ((d0 :: dt) ++
            '\n' :: (str "Content:" ++ ' ' :: ((c0 :: ct) ++
              '\n' :: (str "Last accessed:" ++ ' ' :: ((a0 :: at2) ++ rest))))))))) := by
    rw [fieldCap_append]
    exact capAfterWs_good _ i0 it _ hi0 (hallNl _ hiall) (by simp)
  have hf2 : nlGapThen (str "Title:") (fun ch => decide (ch ≠ '\n'))
      ('\n' :: (str "Title:" ++ ' ' :: ((t0 :: tt) ++
        '\n' :: (str "Relevance:" ++ ' ' :: ((d0 :: dt) ++
          '\n' :: (str "Content:" ++ ' ' :: ((c0 :: ct) ++
            '\n' :: (str "Last accessed:" ++ ' ' :: ((a0 :: at2) ++ rest))))))))) =
      some (t0 :: tt,
        '\n' :: (str "Relevance:" ++ ' ' :: ((d0 :: dt) ++
          '\n' :: (str "Content:" ++ ' ' :: ((c0 :: ct) ++
            '\n' :: (str "Last accessed:" ++ ' ' :: ((a0 :: at2) ++ rest))))))) := by
    rw [nlGapThen_cons (str "Title:") (fun ch => decide (ch ≠ '\n')) _ 'T' (str "itle:") rfl (by decide), fieldCap_append]
    exact capAfterWs_good _ t0 tt _ ht0 (hallNl _ htall) (by simp)
  have hf3 : nlGapThen (str "Relevance:") Char.isDigit
      ('\n' :: (str "Relevance:" ++ ' ' :: ((d0 :: dt) ++
        '\n' :: (str "Content:" ++ ' ' :: ((c0 :: ct) ++
          '\n' :: (str "Last accessed:" ++ ' ' :: ((a0 :: at2) ++ rest))))))) =
      some (d0 :: dt,
        '\n' :: (str "Content:" ++ ' ' :: ((c0 :: ct) ++
          '\n' :: (str "Last accessed:" ++ ' ' :: ((a0 :: at2) ++ rest))))) := by
    rw [nlGapThen_cons (str "Relevance:") Char.isDigit _ 'R' (str "elevance:") rfl (by decide), fieldCap_append]
    exact capAfterWs_good _ d0 dt _ (isDigit_not_ws d0 (hdall d0 (by simp))) hdall (by simp)
  have hf4 : nlGapThen (str "Content:") (fun ch => decide (ch ≠ '\n'))
      ('\n' :: (str "Content:" ++ ' ' :: ((c0 :: ct) ++
        '\n' :: (str "Last accessed:" ++ ' ' :: ((a0 :: at2) ++ rest))))) =
      some (c0 :: ct,
        '\n' :: (str "Last accessed:" ++ ' ' :: ((a0 :: at2) ++ rest))) := by
    rw [nlGapThen_cons (str "Content:") (fun ch => decide (ch ≠ '\n')) _ 'C' (str "ontent:") rfl (by decide), fieldCap_append]
    exact capAfterWs_good _ c0 ct _ hc0 (hallNl _ hcall) (by simp)
  have hf5 : nlGapThen (str "Last accessed:") (fun ch => decide (ch ≠ '\n'))
      ('\n' :: (str "Last accessed:" ++ ' ' :: ((a0 :: at2) ++ rest))) =
      some (a0 :: at2, rest) := by
    rw [nlGapThen_cons (str "Last accessed:") (fun ch => decide (ch ≠ '\n')) _ 'L' (str "ast accessed:") rfl (by decide), fieldCap_append]
    exact capAfterWs_good _ a0 at2 _ ha0 (hallNl _ haall) (hrestTW _ hkeepNl)
  simp only [matchResourceBlock, hf1, hf2, hf3, hf4, hf5]

/-- A five-line block is never empty. -/
theorem resourceBlockText_ne_nil (rid t rel c a : Chars) :
    resourceBlockText rid t rel c a ≠ [] := by
  intro h
  have hlen := congrArg List.length h
  simp [resourceBlockText, List.length_append, List.length_cons] at hlen

/-- The two-block fixture text of the resource-extraction claim: the
concrete first block (`r1` / `T1` / `90` / `C1` / `2025-01-01`) followed by
a second symbolic five-field block. -/
def c8text (rid2 t2 rel2 c2 a2 : Chars) : Chars :=
  resourceBlockText (str "r1") (str "T1") (str "90") (str "C1") (str "2025-01-01") ++
    '\n' :: resourceBlockText rid2 t2 rel2 c2 a2

/-- C8: resource-list extraction on the concrete first block followed by
any well-formed second five-field block yields exactly two resource
records, the first with relevance 90. -/
theorem c8_resource_blocks (rid2 t2 rel2 c2 a2 : Chars)
    (h1 : goodField rid2 = true) (h2 : goodField t2 = true)
    (h3 : goodDigits rel2 = true) (h4 : goodField c2 = true) (h5 : goodField a2 = true) :
    (parseAssociatedResources (String.mk (c8text rid2 t2 rel2 c2 a2))).length = 2 ∧
      ((parseAssociatedResources (String.mk (c8text rid2 t2 rel2 c2 a2))).head?.map
        (fun r => r.relevance)) = some (some 90) := by
  have Hf : ∀ (s : Chars) (a : Resource) (rest : Chars),
      matchResourceBlock s = some (a, rest) → rest.length < s.length :=
    fun s a rest h => matchResourceBlock_some_length s a rest h
  set B2 := resourceBlockText rid2 t2 rel2 c2 a2 with hB2
  set B1 := resourceBlockText (str "r1") (str "T1") (str "90") (str "C1") (str "2025-01-01")
    with hB1
  have hB1ne : B1 ≠ [] := hB1 ▸ resourceBlockText_ne_nil _ _ _ _ _
  have hB2ne : B2 ≠ [] := hB2 ▸ resourceBlockText_ne_nil _ _ _ _ _
  have hTne : B1 ++ '\n' :: B2 ≠ [] := by simp
  have hm1 := matchResourceBlock_block (str "r1") (str "T1") (str "90") (str "C1")
    (str "2025-01-01") ('\n' :: B2) (by decide) (by decide) (by decide) (by decide)
    (by decide) (Or.inr ⟨B2, rfl⟩)
  rw [← hB1] at hm1
  have hm2 := matchResourceBlock_block rid2 t2 rel2 c2 a2 [] h1 h2 h3 h4 h5 (Or.inl rfl)
  rw [List.append_nil, ← hB2] at hm2
  have hlt2 : ('\n' :: B2).length < (B1 ++ '\n' :: B2).length := by
    have := List.length_pos.mpr hB1ne
    simp only [List.length_append, List.length_cons]
    omega
  have hscan : scanAll matchResourceBlock ((B1 ++ '\n' :: B2).length + 1) (B1 ++ '\n' :: B2)
      = [⟨String.mk (trimChars (str "r1")), String.mk (trimChars (str "T1")),
          some (digitsToNat (str "90")), String.mk (trimChars (str "C1")),
          some (String.mk (trimChars (str "2025-01-01")))⟩,
         ⟨String.mk (trimChars rid2), String.mk (trimChars t2),
          some (digitsToNat rel2), String.mk (trimChars c2),
          some (String.mk (trimChars a2))⟩] := by
    rw [scanAll_match matchResourceBlock _ _ _ _ hm1 hTne]
    rw [scanAll_fuel matchResourceBlock Hf _ _ hlt2]
    rw [scanAll_skip matchResourceBlock (('\n' :: B2).length) '\n' B2 rfl]
    rw [show ('\n' :: B2).length = B2.length + 1 from by simp]
    rw [scanAll_match matchResourceBlock B2.length B2 _ [] hm2 hB2ne]
    rw [scanAll_nil]
  have hdata : (String.mk (c8text rid2 t2 rel2 c2 a2)).data = B1 ++ '\n' :: B2 := by
    rw [hB1, hB2]
    rfl
  unfold parseAssociatedResources
  rw [hdata, hscan]
  exact ⟨rfl, rfl⟩

/-- C8 (witness): the claim at a concrete well-formed second block
(`r2` / `T2` / `80` / `C2` / `2025-01-02`). -/
theorem c8_witness :
    (parseAssociatedResources (String.mk
      (c8text (str "r2") (str "T2") (str "80") (str "C2") (str "2025-01-02")))).length = 2 ∧
      ((parseAssociatedResources (String.mk
        (c8text (str "r2") (str "T2") (str "80") (str "C2") (str "2025-01-02")))).head?.map
          (fun r => r.relevance)) = some (some 90) :=
  c8_resource_blocks (str "r2") (str "T2") (str "80") (str "C2") (str "2025-01-02")
    (by decide) (by decide) (by decide) (by decide) (by decide)
